import Mathlib

/-!
# The request pipeline of `backend/server.js`

`server.js` assembles an Express application: it registers a fixed sequence of
middleware layers, four route registrations guarded by `try`/`catch`, an error
handler and a catch-all responder, and finally calls `app.listen`.

The embedding has three parts.

* The router of the framework: a stack of layers walked in registration order
  (`dispatch`), with the two modes of the walk (no error pending / error
  pending) and the path and method tests a layer applies.
* The layers `server.js` registers, in the order of its source lines (`app`),
  each with the options written in the file.  The third-party middleware
  (`helmet`, `express-rate-limit`, `cors`, `express.json`,
  `express.urlencoded`, `morgan`, `express.static`) is modelled by its control
  flow for exactly the options `server.js` passes.  The route modules
  (`./routes/auth`, `./routes/admin`, `./routes/public`) and the static file
  server are inputs (`Deps`): every theorem holds for all of them.
* The start-up sequence (`startup`) with its four `try`/`catch` blocks.

A response is the status, the headers and the body value handed to
`res.json` / `res.send` / `res.end`.
-/

namespace Server

/-! ## Environment and requests -/

/-- Environment variables read by `server.js` (`process.env`); `none` is unset. -/
structure Env where
  NODE_ENV : Option String
  FRONTEND_URL : Option String
  PORT : Option String
deriving DecidableEq, Repr

/-- Request methods as delivered by the HTTP parser of the runtime, always in
upper case. `EXTENSION k` stands for any further token of the parser's method
table (PROPFIND, MKCOL, ...), none of them equal to a listed one. -/
inductive Method
  | GET | HEAD | POST | PUT | PATCH | DELETE | OPTIONS | TRACE
  | EXTENSION (k : Nat)
deriving DecidableEq, Repr

/-- Media type of a request body, as far as the two body parsers distinguish it. -/
inductive MediaType
  | json
  | urlencoded
  | other
deriving DecidableEq, Repr

/-- A request body as the body parsers see it: its `Content-Type`, its length in
bytes and, when the parser for its media type does not accept the text, the
message of the syntax error. Character-set and content-encoding negotiation are
not represented. -/
structure Payload where
  mediaType : MediaType
  length : Nat
  syntaxError : Option String
deriving DecidableEq, Repr

/-- An inbound request. `path` is the path name of the URL, `ip` is `req.ip`,
`origin` the `Origin` header, `acRequestHeaders` the
`Access-Control-Request-Headers` header, `payload` the body (`none` when the
request has none) and `time` the clock reading, in milliseconds since the
epoch, while the request is handled. -/
structure Request where
  method : Method
  path : String
  ip : String
  origin : Option String
  acRequestHeaders : Option String
  payload : Option Payload
  time : Nat
deriving DecidableEq, Repr

/-! ## Responses -/

/-- A value of a field of a JSON body. -/
inductive JVal
  | bool (b : Bool)
  | str (s : String)
deriving DecidableEq, Repr

/-- A response body. -/
inductive Body
  | empty
  | text (s : String)
  | json (fields : List (String × JVal))
  | file (content : String)
deriving DecidableEq, Repr

abbrev Header := String × String

/-- A response: status code, headers, body. -/
structure Response where
  status : Nat
  headers : List Header
  body : Body
deriving DecidableEq, Repr

/-- A JavaScript error value: `err.message`, `err.stack`, and the `status`
property the body parsers attach. -/
structure Err where
  message : String
  stack : String
  status : Option Nat
deriving DecidableEq, Repr

/-- The per-request state that layers hand on to each other: whether a body
parser has already parsed the body (`req._body`) and the response headers set
so far. -/
structure Exchange where
  bodyParsed : Bool
  headers : List Header
deriving DecidableEq, Repr

/-- What a layer does with a request: call `next()`, call `next(err)` (or
throw), or end the response. -/
inductive Outcome
  | next (x : Exchange)
  | fail (e : Err) (x : Exchange)
  | done (r : Response)
deriving DecidableEq, Repr

/-- An output stream of the process. -/
inductive Stream
  | stdout
  | stderr
deriving DecidableEq, Repr

/-- One `console.log` / `console.error` call: the stream and the printed arguments. -/
structure LogLine where
  stream : Stream
  args : List String
deriving DecidableEq, Repr

/-- A record of the rate limiter's store for one client: the hits counted in
the client's current window and the time, in milliseconds since the epoch, at
which that window ends. -/
structure Client where
  totalHits : Nat
  resetTime : Nat
deriving DecidableEq, Repr

/-- The state of the running server that outlives a request: the store of the
rate limiter, keyed by client IP (`none`: no record for the IP), and the
console output. -/
structure ServerState where
  clients : String → Option Client
  console : List LogLine

/-- The server right after start-up: the store holds no client. -/
def freshState : ServerState := ⟨fun _ => none, []⟩

/-- The hits of an IP in its current window as seen at time `now`: a client
without a record, or whose window has ended by `now`, has none. -/
def ServerState.hits (st : ServerState) (ip : String) (now : Nat) : Nat :=
  match st.clients ip with
  | none => 0
  | some c => if c.resetTime ≤ now then 0 else c.totalHits

/-- The end of the window a request of the IP at time `now` falls into: the end
of the client's running window, or `now + windowMs` when the request opens a
new one (no record, or the old window has ended). -/
def ServerState.windowEnd (st : ServerState) (windowMs : Nat) (ip : String) (now : Nat) : Nat :=
  match st.clients ip with
  | none => now + windowMs
  | some c => if c.resetTime ≤ now then now + windowMs else c.resetTime

/-! ## The router -/

/-- Names of the stages `server.js` registers. -/
inductive StageName
  | helmet | limiter | cors | json | urlencoded | morgan | static
  | auth | admin | pub | health | errorHandler | notFound
deriving DecidableEq, Repr

/-- How an invoked stage returned control. -/
inductive Signal
  | passed
  | raised (e : Err)
  | ended
deriving DecidableEq, Repr

/-- One entry of the trace of a request: a stage whose handler was invoked, and
how it returned. -/
structure Event where
  stage : StageName
  signal : Signal
deriving DecidableEq, Repr

/-- A request handler `(req, res, next)`. -/
abbrev Handler := Request → ServerState → Exchange → ServerState × Outcome

/-- An error handler `(err, req, res, next)`. -/
abbrev ErrHandler := Err → Request → ServerState → Exchange → ServerState × Outcome

/-- The function of a layer: the router tells the two kinds apart by arity. -/
inductive LayerFn
  | normal (h : Handler)
  | error (h : ErrHandler)

/-- A layer of the router stack. -/
structure Layer where
  name : StageName
  accepts : Request → Bool
  fn : LayerFn

/-- How the walk of the stack ends: a layer ended the response, or the stack
is exhausted and the framework's final handler takes over, with no error
(`unmatched`) or with a pending one (`uncaught`). -/
inductive Result
  | response (r : Response)
  | unmatched
  | uncaught (e : Err)
deriving DecidableEq, Repr

/-- Status of the response, when a layer produced one. -/
def Result.status? : Result → Option Nat
  | .response r => some r.status
  | _ => none

/-- Body of the response, when a layer produced one. -/
def Result.body? : Result → Option Body
  | .response r => some r.body
  | _ => none

/-- The run of one request: final server state, trace, result. -/
structure Run where
  state : ServerState
  trace : List Event
  result : Result

/-- Prepend an event to the trace of a run. -/
def Run.push (ev : Event) (run : Run) : Run := { run with trace := ev :: run.trace }

/-- The call the router makes on a layer, if it makes one (`none`: the layer is
skipped). A layer whose path or method test fails is skipped; with no error
pending only request handlers are called, with an error pending only error
handlers. -/
def Layer.call (l : Layer) (pending : Option Err) (r : Request) (st : ServerState)
    (x : Exchange) : Option (ServerState × Outcome) :=
  if l.accepts r then
    match pending, l.fn with
    | none, .normal h => some (h r st x)
    | some err, .error h => some (h err r st x)
    | none, .error _ => none
    | some _, .normal _ => none
  else none

/-- The walk of the router over its stack (`next` in `router/index.js`), in
registration order. `next()` continues without error, `next(err)` or a throw
continues with the error pending, and an ended response stops the walk. When
the stack is exhausted the final handler of the framework takes over. -/
def dispatch : List Layer → Option Err → Request → ServerState → Exchange → Run
  | [], none, _, st, _ => ⟨st, [], .unmatched⟩
  | [], some e, _, st, _ => ⟨st, [], .uncaught e⟩
  | l :: rest, pending, r, st, x =>
    match l.call pending r st x with
    | none => dispatch rest pending r st x
    | some (st1, .next x1) => (dispatch rest none r st1 x1).push ⟨l.name, .passed⟩
    | some (st1, .fail e x1) => (dispatch rest (some e) r st1 x1).push ⟨l.name, .raised e⟩
    | some (st1, .done res) => ⟨st1, [⟨l.name, .ended⟩], .response res⟩

/-! ### Path tests -/

/-- Lower-case characters of a string (the `i` flag of the layer's regular
expression folds ASCII letters only). -/
def lowerChars (s : String) : List Char := s.data.map Char.toLower

/-- Remove the pattern from the front of the input, if it is there. -/
def dropLeading : List Char → List Char → Option (List Char)
  | [], rest => some rest
  | _ :: _, [] => none
  | p :: ps, c :: cs => if p = c then dropLeading ps cs else none

/-- Path test of `app.use(mount, ...)`, the regular expression
`^mount\/?(?=\/|$)` with flag `i`: the path starts with the mount path,
ignoring case, and ends there or continues with a slash. -/
def mountMatches (mount path : String) : Bool :=
  match dropLeading (lowerChars mount) (lowerChars path) with
  | some [] => true
  | some (c :: _) => c = '/'
  | none => false

/-- Path test of a route `app.get(route, ...)`, the regular expression
`^route\/?$` with flag `i`: the path is the route path, ignoring case, with an
optional trailing slash. -/
def routeMatches (route path : String) : Bool :=
  match dropLeading (lowerChars route) (lowerChars path) with
  | some [] => true
  | some [c] => c = '/'
  | _ => false

/-- Method test of a route registered with `app.get`: it handles GET, and HEAD
as well since no HEAD handler is registered for the route. -/
def getHandles (m : Method) : Bool :=
  match m with
  | .GET => true
  | .HEAD => true
  | _ => false

/-! ## The layers of `server.js` -/

/-- The parts of the program outside `server.js`: the header set `helmet()`
writes, the informational headers the rate limiter writes for a given hit
count, the static file server over the `uploads` directory, and the three
route modules. -/
structure Deps where
  helmetHeaders : List Header
  rateLimitHeaders : Nat → List Header
  uploads : Request → Exchange → Outcome
  authRoutes : Request → Exchange → Outcome
  adminRoutes : Request → Exchange → Outcome
  publicRoutes : Request → Exchange → Outcome

/-- Turn a handler that does not touch the server state into a layer function. -/
def LayerFn.pure (f : Request → Exchange → Outcome) : LayerFn :=
  .normal (fun r st x => (st, f r x))

/-- Line 20, `app.use(helmet())`: write the protective headers, call `next()`. -/
def helmetLayer (deps : Deps) : Layer :=
  ⟨.helmet, fun _ => true,
    LayerFn.pure (fun _ x => .next { x with headers := x.headers ++ deps.helmetHeaders })⟩

/-- Options of `rateLimit(...)`. -/
structure RateLimitOptions where
  windowMs : Nat
  max : Nat
  message : String
  statusCode : Nat
deriving DecidableEq, Repr

/-- Lines 23-27: the options passed to `rateLimit`; `statusCode` is the
library default. -/
def limiterOptions : RateLimitOptions :=
  ⟨15 * 60 * 1000, 100, "Too many requests from this IP, please try again later.", 429⟩

/-- The store's `increment` for a key at time `now`: a record is created on the
first request of a client, a record whose window has ended is reset and a new
window of `windowMs` milliseconds opened, and the hit is counted. -/
def increment (windowMs : Nat) (st : ServerState) (ip : String) (now : Nat) : Client :=
  ⟨st.hits ip now + 1, st.windowEnd windowMs ip now⟩

/-- The middleware `rateLimit(o)`: count the request in the store under the
client's IP, write the informational headers, and answer with
`res.status(statusCode).send(message)` when the client's hits in its current
window, this request included, are more than `max`; otherwise call `next()`.
The window is per client: it opens with the client's first request and lasts
`windowMs` milliseconds. -/
def rateLimit (deps : Deps) (o : RateLimitOptions) : Handler := fun r st x =>
  let client := increment o.windowMs st r.ip r.time
  let st1 : ServerState := { st with clients := Function.update st.clients r.ip (some client) }
  let x1 : Exchange := { x with headers := x.headers ++ deps.rateLimitHeaders client.totalHits }
  if o.max < client.totalHits then (st1, .done ⟨o.statusCode, x1.headers, .text o.message⟩)
  else (st1, .next x1)

/-- Line 23, `const limiter = rateLimit(...)`. -/
def limiter (deps : Deps) : Handler := rateLimit deps limiterOptions

/-- Line 28, `app.use(limiter)`. -/
def limiterLayer (deps : Deps) : Layer := ⟨.limiter, fun _ => true, .normal (limiter deps)⟩

/-- JavaScript `v || d` for an environment variable: unset and the empty
string are falsy. -/
def orDefault (v : Option String) (d : String) : String :=
  match v with
  | none => d
  | some s => if s = "" then d else s

/-- Line 32: `process.env.FRONTEND_URL || 'http://localhost:3000'`. -/
def allowedOrigin (env : Env) : String := orDefault env.FRONTEND_URL "http://localhost:3000"

/-- Headers `cors` writes on every request for a fixed string `origin` and
`credentials: true`: the configured origin, not the request's. -/
def corsBaseHeaders (origin : String) : List Header :=
  [("Access-Control-Allow-Origin", origin), ("Vary", "Origin"),
   ("Access-Control-Allow-Credentials", "true")]

/-- Further headers `cors` writes on a preflight request: the default method
list, and the requested headers reflected. -/
def corsPreflightHeaders (r : Request) : List Header :=
  [("Access-Control-Allow-Methods", "GET,HEAD,PUT,PATCH,POST,DELETE"),
   ("Vary", "Access-Control-Request-Headers")] ++
  (match r.acRequestHeaders with
   | none => []
   | some h => if h = "" then [] else [("Access-Control-Allow-Headers", h)])

/-- The middleware `cors({ origin, credentials: true })` for a string `origin`.
An OPTIONS request is answered by the middleware itself with status 204 and an
empty body; every other request gets the headers and `next()`. The `Origin`
header of the request is not consulted. -/
def corsMiddleware (origin : String) (r : Request) (x : Exchange) : Outcome :=
  if r.method = .OPTIONS then
    .done ⟨204, x.headers ++ corsBaseHeaders origin ++ corsPreflightHeaders r ++
      [("Content-Length", "0")], .empty⟩
  else
    .next { x with headers := x.headers ++ corsBaseHeaders origin }

/-- Lines 31-34, `app.use(cors(...))`. -/
def corsLayer (env : Env) : Layer :=
  ⟨.cors, fun _ => true, LayerFn.pure (corsMiddleware (allowedOrigin env))⟩

/-- The limit `'10mb'` of lines 37 and 38 in bytes: 10 * 1024 * 1024. -/
def bodyLimit : Nat := 10 * 1024 * 1024

/-- The error a body parser raises for a body over the limit. -/
def tooLarge : Err :=
  ⟨"request entity too large", "PayloadTooLargeError: request entity too large", some 413⟩

/-- The error a body parser raises for a body its parser rejects. -/
def malformed (msg : String) : Err := ⟨msg, "SyntaxError: " ++ msg, some 400⟩

/-- A body parser for one media type with the 10 MB limit: skip when a body is
already parsed, when the request has no body, or when the media type is not
the parser's; raise 413 when the body is longer than the limit and 400 when it
does not parse; otherwise record the parsed body and call `next()`. -/
def bodyParser (mt : MediaType) (r : Request) (x : Exchange) : Outcome :=
  if x.bodyParsed then .next x
  else
    match r.payload with
    | none => .next x
    | some p =>
      if p.mediaType = mt then
        if bodyLimit < p.length then .fail tooLarge x
        else
          match p.syntaxError with
          | some msg => .fail (malformed msg) x
          | none => .next { x with bodyParsed := true }
      else .next x

/-- Line 37, `app.use(express.json({ limit: '10mb' }))`. -/
def jsonLayer : Layer := ⟨.json, fun _ => true, LayerFn.pure (bodyParser .json)⟩

/-- Line 38, `app.use(express.urlencoded({ extended: true, limit: '10mb' }))`. -/
def urlencodedLayer : Layer := ⟨.urlencoded, fun _ => true, LayerFn.pure (bodyParser .urlencoded)⟩

/-- Line 42, `app.use(morgan('dev'))`: the access log line is written when the
response finishes; the middleware itself calls `next()`. -/
def morganLayer : Layer := ⟨.morgan, fun _ => true, LayerFn.pure (fun _ x => .next x)⟩

/-- Line 46, `app.use('/uploads', express.static('uploads'))`. -/
def staticLayer (deps : Deps) : Layer :=
  ⟨.static, fun r => mountMatches "/uploads" r.path, LayerFn.pure deps.uploads⟩

/-- Line 51, `app.use('/api/auth', authRoutes)`. -/
def authLayer (deps : Deps) : Layer :=
  ⟨.auth, fun r => mountMatches "/api/auth" r.path, LayerFn.pure deps.authRoutes⟩

/-- Line 60, `app.use('/api/admin', adminRoutes)`. -/
def adminLayer (deps : Deps) : Layer :=
  ⟨.admin, fun r => mountMatches "/api/admin" r.path, LayerFn.pure deps.adminRoutes⟩

/-- Line 69, `app.use('/api/public', publicRoutes)`. -/
def publicLayer (deps : Deps) : Layer :=
  ⟨.pub, fun r => mountMatches "/api/public" r.path, LayerFn.pure deps.publicRoutes⟩

/-- Two decimal digits of a number. -/
def pad2 (n : Nat) : List Char :=
  [Char.ofNat (48 + n / 10 % 10), Char.ofNat (48 + n % 10)]

/-- Three decimal digits of a number. -/
def pad3 (n : Nat) : List Char := Char.ofNat (48 + n / 100 % 10) :: pad2 n

/-- Four decimal digits of a number. -/
def pad4 (n : Nat) : List Char := Char.ofNat (48 + n / 1000 % 10) :: pad3 n

/-- Six decimal digits of a number. -/
def pad6 (n : Nat) : List Char :=
  Char.ofNat (48 + n / 100000 % 10) :: Char.ofNat (48 + n / 10000 % 10) :: pad4 n

/-- Year, month and day of a day count since 1970-01-01 in the proleptic
Gregorian calendar. -/
def civil (days : Nat) : Nat × Nat × Nat :=
  let z := days + 719468
  let era := z / 146097
  let doe := z % 146097
  let yoe := (doe - doe / 1460 + doe / 36524 - doe / 146096) / 365
  let doy := doe - (365 * yoe + yoe / 4 - yoe / 100)
  let mp := (5 * doy + 2) / 153
  let d := doy - (153 * mp + 2) / 5 + 1
  let m := if mp < 10 then mp + 3 else mp - 9
  let y := yoe + era * 400
  (if m ≤ 2 then y + 1 else y, m, d)

/-- `Date.prototype.toISOString` for a time value at or after the epoch:
`YYYY-MM-DDTHH:mm:ss.sssZ`, with the expanded year `+YYYYYY` after year 9999. -/
def toISOString (ms : Nat) : String :=
  let day := ms / 86400000
  let rem := ms % 86400000
  let ymd := civil day
  let year := if ymd.1 ≤ 9999 then pad4 ymd.1 else '+' :: pad6 ymd.1
  ⟨year ++ '-' :: pad2 ymd.2.1 ++ '-' :: pad2 ymd.2.2 ++ 'T' :: pad2 (rem / 3600000) ++
    ':' :: pad2 (rem / 60000 % 60) ++ ':' :: pad2 (rem / 1000 % 60) ++
    '.' :: pad3 (rem % 1000) ++ ['Z']⟩

/-- Lines 79-85, the handler of `app.get('/api/health', ...)`. -/
def healthHandler (r : Request) (x : Exchange) : Outcome :=
  .done ⟨200, x.headers,
    .json [("success", .bool true), ("message", .str "Alfa TechX API is running!"),
           ("timestamp", .str (toISOString r.time))]⟩

/-- Line 79, the route `app.get('/api/health', ...)`. -/
def healthLayer : Layer :=
  ⟨.health, fun r => routeMatches "/api/health" r.path && getHandles r.method,
    LayerFn.pure healthHandler⟩

/-- Line 98: `process.env.NODE_ENV === 'development' ? err.message : 'Internal server error'`. -/
def errorDetail (env : Env) (e : Err) : String :=
  if env.NODE_ENV = some "development" then e.message else "Internal server error"

/-- Lines 95-99, the body of the error response. -/
def errorBody (env : Env) (e : Err) : Body :=
  .json [("success", .bool false), ("message", .str "Something went wrong!"),
         ("error", .str (errorDetail env e))]

/-- Lines 93-100, the error handler: print the stack, answer 500. -/
def errorHandler (env : Env) : ErrHandler := fun e _ st x =>
  ({ st with console := st.console ++ [⟨.stderr, [e.stack]⟩] },
   .done ⟨500, x.headers, errorBody env e⟩)

/-- Line 93, `app.use((err, req, res, next) => ...)`. -/
def errorLayer (env : Env) : Layer := ⟨.errorHandler, fun _ => true, .error (errorHandler env)⟩

/-- Lines 104-107, the body of the catch-all response. -/
def notFoundBody : Body := .json [("success", .bool false), ("message", .str "Route not found")]

/-- Line 103, `app.use('*', ...)`: the star path accepts every request. -/
def notFoundLayer : Layer :=
  ⟨.notFound, fun _ => true, LayerFn.pure (fun _ x => .done ⟨404, x.headers, notFoundBody⟩)⟩

/-- Lines 20-46: the layers registered ahead of the routes. The access logger
is registered only when `NODE_ENV` is `development`. -/
def baseStack (env : Env) (deps : Deps) : List Layer :=
  [helmetLayer deps, limiterLayer deps, corsLayer env, jsonLayer, urlencodedLayer] ++
  (if env.NODE_ENV = some "development" then [morganLayer] else []) ++
  [staticLayer deps]

/-- The router stack after `server.js` has run to `app.listen`: the layers in
the order of the source lines 20, 28, 31, 37, 38, 42, 46, 51, 60, 69, 79, 93, 103. -/
def app (env : Env) (deps : Deps) : List Layer :=
  baseStack env deps ++
  [authLayer deps, adminLayer deps, publicLayer deps, healthLayer, errorLayer env, notFoundLayer]

/-- The exchange at the start of a request: no body parsed, no header set. -/
def Exchange.init : Exchange := ⟨false, []⟩

/-- The application handling one request. -/
def handleRequest (env : Env) (deps : Deps) (st : ServerState) (r : Request) : Run :=
  dispatch (app env deps) none r st Exchange.init

/-- The server state after a sequence of requests handled one after the other. -/
def stateAfter (env : Env) (deps : Deps) (st : ServerState) (rs : List Request) : ServerState :=
  rs.foldl (fun s q => (handleRequest env deps s q).state) st

/-- Number of requests of a sequence that come from the given IP. -/
def hitsFrom (ip : String) (rs : List Request) : Nat := (rs.filter (fun q => q.ip = ip)).length

/-- Every request of the IP in the sequence arrives before the deadline. -/
def allBefore (ip : String) (deadline : Nat) (rs : List Request) : Bool :=
  rs.all (fun q => decide (q.ip ≠ ip) || decide (q.time < deadline))

/-- The requests of the IP in the sequence lie inside one window of `windowMs`
milliseconds: the first of them opens the window and all later ones arrive
before it ends. -/
def inOneWindow (windowMs : Nat) (ip : String) : List Request → Bool
  | [] => true
  | q :: rs => if q.ip = ip then allBefore ip (q.time + windowMs) rs else inOneWindow windowMs ip rs

/-- The stage names of a stack, in order. -/
def stageNames (stack : List Layer) : List StageName := stack.map Layer.name

/-- The stages a trace went through, in order. -/
def stagesOf (run : Run) : List StageName := run.trace.map Event.stage

/-! ## Start-up -/

/-- The four guarded registration steps of lines 48-90. -/
inductive RegStep
  | auth | admin | pub | health
deriving DecidableEq, Repr

/-- The line printed ahead of a registration step. -/
def RegStep.announce : RegStep → String
  | .auth => "Registering auth routes..."
  | .admin => "Registering admin routes..."
  | .pub => "Registering public routes..."
  | .health => "Registering health check route..."

/-- The line printed after a registration step that did not throw. -/
def RegStep.success : RegStep → String
  | .auth => "Auth routes registered successfully"
  | .admin => "Admin routes registered successfully"
  | .pub => "Public routes registered successfully"
  | .health => "Health check route registered successfully"

/-- The text printed by the `catch` block of a registration step. -/
def RegStep.failure : RegStep → String
  | .auth => "Error registering auth routes:"
  | .admin => "Error registering admin routes:"
  | .pub => "Error registering public routes:"
  | .health => "Error registering health check route:"

/-- The layer a registration step adds to the stack. -/
def RegStep.layer (deps : Deps) : RegStep → Layer
  | .auth => authLayer deps
  | .admin => adminLayer deps
  | .pub => publicLayer deps
  | .health => healthLayer

/-- The process while `server.js` runs top to bottom: the router stack built so
far and the console output. -/
structure Boot where
  stack : List Layer
  console : List LogLine

/-- Print a line on standard output. -/
def Boot.log (b : Boot) (s : String) : Boot := { b with console := b.console ++ [⟨.stdout, [s]⟩] }

/-- The first argument of `app.listen`: the string of `PORT` or the number 5000. -/
inductive PortArg
  | str (s : String)
  | num (n : Nat)
deriving DecidableEq, Repr

/-- Line 110: `process.env.PORT || 5000`. -/
def PORT (env : Env) : PortArg :=
  match env.PORT with
  | none => .num 5000
  | some s => if s = "" then .num 5000 else .str s

/-- The port as the template literal of line 114 prints it. -/
def PortArg.render : PortArg → String
  | .str s => s
  | .num n => toString n

/-- How the run of `server.js` ends: `process.exit(code)`, or the call of
`app.listen(port, host, ...)`. -/
inductive Final
  | exited (code : Nat) (boot : Boot)
  | listening (port : PortArg) (host : String) (boot : Boot)

/-- One guarded registration, lines 49-56 and alike: announce, call the
framework, print the success line; when the call throws, print the error on
standard error and leave through `process.exit(1)` (the `Except.error` side).
`raises` tells, per step, whether the framework call throws and with what. -/
def register (deps : Deps) (raises : RegStep → Option Err) (s : RegStep) (b : Boot) :
    Except Boot Boot :=
  let b1 := b.log s.announce
  match raises s with
  | none => .ok ({ b1 with stack := b1.stack ++ [s.layer deps] }.log s.success)
  | some e => .error { b1 with console := b1.console ++ [⟨.stderr, [s.failure, e.stack]⟩] }

/-- Lines 92-116: register the error handler and the catch-all responder, then
listen on `0.0.0.0`; the callback prints the two banner lines. -/
def finish (env : Env) (b : Boot) : Final :=
  let b1 : Boot := { b with stack := b.stack ++ [errorLayer env, notFoundLayer] }
  .listening (PORT env) "0.0.0.0"
    ((b1.log ("🚀 Alfa TechX Server running on port " ++ (PORT env).render)).log
      ("🌍 Environment: " ++ env.NODE_ENV.getD "undefined"))

/-- The run of `server.js` from line 19 on. -/
def startup (env : Env) (deps : Deps) (raises : RegStep → Option Err) : Final :=
  match register deps raises .auth ⟨baseStack env deps, []⟩ with
  | .error b => .exited 1 b
  | .ok b1 =>
    match register deps raises .admin b1 with
    | .error b => .exited 1 b
    | .ok b2 =>
      match register deps raises .pub b2 with
      | .error b => .exited 1 b
      | .ok b3 =>
        match register deps raises .health b3 with
        | .error b => .exited 1 b
        | .ok b4 => finish env b4

/-! ## Auxiliary definitions for the statements -/

/-- The layers behind the rate limiter, in registration order. -/
def afterLimiter (env : Env) (deps : Deps) : List Layer :=
  (app env deps).drop 2

/-- The server state after the limiter has counted a request. -/
def ServerState.bump (st : ServerState) (r : Request) : ServerState :=
  { st with clients :=
      Function.update st.clients r.ip (some (increment limiterOptions.windowMs st r.ip r.time)) }

/-- The response headers an outcome carries. -/
def Outcome.headers : Outcome → List Header
  | .next x => x.headers
  | .fail _ x => x.headers
  | .done res => res.headers

/-- The registration steps that come before a step in the file. -/
def RegStep.before : RegStep → List RegStep
  | .auth => []
  | .admin => [.auth]
  | .pub => [.auth, .admin]
  | .health => [.auth, .admin, .pub]

/-- The stage a registration step registers. -/
def RegStep.stage : RegStep → StageName
  | .auth => .auth
  | .admin => .admin
  | .pub => .pub
  | .health => .health

/-- The two lines a registration step that does not throw prints. -/
def RegStep.lines (s : RegStep) : List LogLine :=
  [⟨.stdout, [s.announce]⟩, ⟨.stdout, [s.success]⟩]

/-- The stages registered ahead of the routes. -/
def baseStages (env : Env) : List StageName :=
  [.helmet, .limiter, .cors, .json, .urlencoded] ++
  (if env.NODE_ENV = some "development" then [.morgan] else []) ++ [.static]

/-- The stage order as the specification lists it: the 404 responder ahead of
the error handler, which comes last. -/
def specStageOrder (env : Env) : List StageName :=
  baseStages env ++ [.auth, .admin, .pub, .health, .notFound, .errorHandler]

/-! ## Sample inputs -/

/-- An environment with `NODE_ENV=production` and nothing else set. -/
def prodEnv : Env := ⟨some "production", none, none⟩

/-- An environment with `NODE_ENV=development` and nothing else set. -/
def devEnv : Env := ⟨some "development", none, none⟩

/-- An environment with `PORT` and `FRONTEND_URL` set. -/
def customEnv : Env := ⟨none, some "https://app.example.com", some "8080"⟩

/-- An error a route handler could throw. -/
def boom : Err :=
  ⟨"connect ECONNREFUSED 10.0.0.5:27017", "Error: connect ECONNREFUSED 10.0.0.5:27017", none⟩

/-- Sample collaborators: the auth routes throw on `/api/auth/login`, every
other route module and the static server call `next()`. -/
def sampleDeps : Deps :=
  ⟨[("X-Content-Type-Options", "nosniff")], fun _ => [("X-RateLimit-Limit", "100")],
    fun _ x => .next x,
    fun r x => if r.path = "/api/auth/login" then .fail boom x else .next x,
    fun _ x => .next x, fun _ x => .next x⟩

/-- `GET /api/health` from a foreign origin. -/
def healthCheck : Request :=
  ⟨.GET, "/api/health", "203.0.113.7", some "https://evil.example", none, none, 1700000000000⟩

/-- The same health check 900000 ms later. -/
def healthCheckLater : Request := { healthCheck with time := 1700000900000 }

/-- `HEAD /api/health`. -/
def healthHead : Request := { healthCheck with method := .HEAD }

/-- `POST /api/health`. -/
def healthPost : Request := { healthCheck with method := .POST }

/-- `POST /api/auth/login` with a small well-formed JSON body. -/
def loginPost : Request :=
  ⟨.POST, "/api/auth/login", "203.0.113.7", some "http://localhost:3000", none,
    some ⟨.json, 64, none⟩, 1700000000000⟩

/-- `POST /api/public/contact` with a JSON body of 10 MB plus one byte. -/
def bigPost : Request :=
  ⟨.POST, "/api/public/contact", "203.0.113.7", some "http://localhost:3000", none,
    some ⟨.json, 10485761, none⟩, 1700000000000⟩

/-- An OPTIONS request carrying a JSON body of 10 MB plus one byte. -/
def bigOptions : Request := { bigPost with method := .OPTIONS }

/-- `POST /api/public/contact` with a short body that is not JSON text. -/
def brokenPost : Request :=
  { bigPost with payload := some ⟨.json, 5, some "Unexpected token b in JSON at position 1"⟩ }

/-- `POST /api/public/contact` with a JSON body of exactly 10 MB. -/
def fullPost : Request := { bigPost with payload := some ⟨.json, 10485760, none⟩ }

/-- A start-up in which only the health registration throws. -/
def healthRaises : RegStep → Option Err := fun s => if s = .health then some boom else none

/-! # Theorems -/

/-! ## The walk of the stack -/

@[simp]
theorem Run.push_result (ev : Event) (run : Run) : (run.push ev).result = run.result := rfl

@[simp]
theorem Run.push_state (ev : Event) (run : Run) : (run.push ev).state = run.state := rfl

@[simp]
theorem Run.push_trace (ev : Event) (run : Run) :
    (run.push ev).trace = ev :: run.trace := rfl

theorem dispatch_cons (l : Layer) (rest : List Layer) (pending : Option Err) (r : Request)
    (st : ServerState) (x : Exchange) :
    dispatch (l :: rest) pending r st x =
      match l.call pending r st x with
      | none => dispatch rest pending r st x
      | some (st1, .next x1) => (dispatch rest none r st1 x1).push ⟨l.name, .passed⟩
      | some (st1, .fail e x1) => (dispatch rest (some e) r st1 x1).push ⟨l.name, .raised e⟩
      | some (st1, .done res) => ⟨st1, [⟨l.name, .ended⟩], .response res⟩ := by
  cases pending <;> rfl

/-- A raised event in the trace comes from a layer of the stack, and the walk
went on behind that layer with the raised error pending. -/
theorem trace_raised (s : StageName) (e : Err) (r : Request) :
    ∀ (stack : List Layer) (pending : Option Err) (st : ServerState) (x : Exchange),
      (⟨s, .raised e⟩ : Event) ∈ (dispatch stack pending r st x).trace →
      ∃ (i : Nat) (l : Layer) (st1 : ServerState) (x1 : Exchange),
        stack[i]? = some l ∧ l.name = s ∧
        (dispatch stack pending r st x).result =
          (dispatch (stack.drop (i + 1)) (some e) r st1 x1).result ∧
        (dispatch stack pending r st x).state =
          (dispatch (stack.drop (i + 1)) (some e) r st1 x1).state := by
  intro stack
  induction stack with
  | nil => intro pending st x h; cases pending <;> simp [dispatch] at h
  | cons l rest ih =>
    intro pending st x h
    rw [dispatch_cons] at h ⊢
    have lift : ∀ (p : Option Err) (st0 : ServerState) (x0 : Exchange),
        (⟨s, .raised e⟩ : Event) ∈ (dispatch rest p r st0 x0).trace →
        ∃ (i : Nat) (l1 : Layer) (st1 : ServerState) (x1 : Exchange),
          (l :: rest)[i]? = some l1 ∧ l1.name = s ∧
          (dispatch rest p r st0 x0).result =
            (dispatch ((l :: rest).drop (i + 1)) (some e) r st1 x1).result ∧
          (dispatch rest p r st0 x0).state =
            (dispatch ((l :: rest).drop (i + 1)) (some e) r st1 x1).state := by
      intro p st0 x0 hin
      obtain ⟨i, l1, st1, x1, h1, h2, h3, h4⟩ := ih p st0 x0 hin
      exact ⟨i + 1, l1, st1, x1, by simpa using h1, h2, by simpa using h3, by simpa using h4⟩
    cases hc : l.call pending r st x with
    | none => rw [hc] at h; simpa [hc] using lift pending st x h
    | some out =>
      obtain ⟨st1, o⟩ := out
      cases o with
      | next x1 =>
        rw [hc] at h
        simp only [Run.push_trace, List.mem_cons, Event.mk.injEq, reduceCtorEq, and_false,
          false_or] at h
        simpa [hc] using lift none st1 x1 h
      | fail e1 x1 =>
        rw [hc] at h
        simp only [Run.push_trace, List.mem_cons, Event.mk.injEq, Signal.raised.injEq] at h
        rcases h with ⟨hs, he⟩ | h
        · subst he
          exact ⟨0, l, st1, x1, by simp, hs.symm, by simp, by simp⟩
        · simpa [hc] using lift (some e1) st1 x1 h
      | done res =>
        rw [hc] at h
        simp at h

/-- A stage named in the trace was called by the walk; when that call ended the
response, the response is the result of the run. -/
theorem stage_called (s : StageName) (r : Request) :
    ∀ (stack : List Layer) (pending : Option Err) (st : ServerState) (x : Exchange),
      s ∈ stagesOf (dispatch stack pending r st x) →
      ∃ (l : Layer) (p : Option Err) (st0 : ServerState) (x0 : Exchange)
        (out : ServerState × Outcome),
        l ∈ stack ∧ l.name = s ∧ l.call p r st0 x0 = some out ∧
        ∀ res, out.2 = .done res → (dispatch stack pending r st x).result = .response res := by
  intro stack
  induction stack with
  | nil => intro pending st x h; cases pending <;> simp [dispatch, stagesOf] at h
  | cons l rest ih =>
    intro pending st x h
    rw [dispatch_cons] at h ⊢
    have lift : ∀ (p : Option Err) (st0 : ServerState) (x0 : Exchange),
        s ∈ stagesOf (dispatch rest p r st0 x0) →
        ∃ (l1 : Layer) (p1 : Option Err) (st1 : ServerState) (x1 : Exchange)
          (out : ServerState × Outcome),
          l1 ∈ l :: rest ∧ l1.name = s ∧ l1.call p1 r st1 x1 = some out ∧
          ∀ res, out.2 = .done res → (dispatch rest p r st0 x0).result = .response res := by
      intro p st0 x0 hin
      obtain ⟨l1, p1, st1, x1, out, h1, h2, h3, h4⟩ := ih p st0 x0 hin
      exact ⟨l1, p1, st1, x1, out, List.mem_cons_of_mem _ h1, h2, h3, h4⟩
    cases hc : l.call pending r st x with
    | none => rw [hc] at h; simpa [hc] using lift pending st x h
    | some out =>
      obtain ⟨st1, o⟩ := out
      rw [hc] at h
      by_cases hs : l.name = s
      · refine ⟨l, pending, st, x, (st1, o), List.mem_cons_self _ _, hs, hc, ?_⟩
        intro res hres
        simp only at hres
        subst hres
        rfl
      · cases o with
        | next x1 =>
          have h1 : s ∈ stagesOf (dispatch rest none r st1 x1) := by
            simpa [stagesOf, Ne.symm hs] using h
          simpa using lift none st1 x1 h1
        | fail e1 x1 =>
          have h1 : s ∈ stagesOf (dispatch rest (some e1) r st1 x1) := by
            simpa [stagesOf, Ne.symm hs] using h
          simpa using lift (some e1) st1 x1 h1
        | done res =>
          simp [stagesOf, Ne.symm hs] at h

/-- A walk over layers that leave the limiter's store alone leaves them alone. -/
theorem dispatch_clients (r : Request) :
    ∀ (stack : List Layer) (pending : Option Err) (st : ServerState) (x : Exchange),
      (∀ l ∈ stack, ∀ (p : Option Err) (st0 : ServerState) (x0 : Exchange)
        (out : ServerState × Outcome), l.call p r st0 x0 = some out → out.1.clients = st0.clients) →
      (dispatch stack pending r st x).state.clients = st.clients := by
  intro stack
  induction stack with
  | nil => intro pending st x _; cases pending <;> rfl
  | cons l rest ih =>
    intro pending st x hk
    have hrest := fun l1 (h1 : l1 ∈ rest) => hk l1 (List.mem_cons_of_mem _ h1)
    rw [dispatch_cons]
    cases hc : l.call pending r st x with
    | none => simpa using ih pending st x hrest
    | some out =>
      have h0 := hk l (List.mem_cons_self _ _) pending st x out hc
      obtain ⟨st1, o⟩ := out
      cases o with
      | next x1 => simpa [h0] using (ih none st1 x1 hrest).trans h0
      | fail e1 x1 => simpa [h0] using (ih (some e1) st1 x1 hrest).trans h0
      | done res => simpa using h0

theorem app_eq (env : Env) (deps : Deps) :
    app env deps = helmetLayer deps :: limiterLayer deps :: afterLimiter env deps := by
  simp [afterLimiter, app, baseStack]

theorem afterLimiter_eq (env : Env) (deps : Deps) :
    afterLimiter env deps =
      corsLayer env :: jsonLayer :: urlencodedLayer ::
        ((if env.NODE_ENV = some "development" then [morganLayer] else []) ++
          [staticLayer deps, authLayer deps, adminLayer deps, publicLayer deps, healthLayer,
            errorLayer env, notFoundLayer]) := by
  simp [afterLimiter, app, baseStack]

/-- The first two layers unfolded: the security headers are written, the hit of
the client is counted, and the limiter either answers or lets the walk go on. -/
theorem handleRequest_eq (env : Env) (deps : Deps) (st : ServerState) (r : Request) :
    handleRequest env deps st r =
      if 100 < st.hits r.ip r.time + 1 then
        ⟨st.bump r, [⟨.helmet, .passed⟩, ⟨.limiter, .ended⟩],
          .response ⟨429, deps.helmetHeaders ++ deps.rateLimitHeaders (st.hits r.ip r.time + 1),
            .text "Too many requests from this IP, please try again later."⟩⟩
      else
        ((dispatch (afterLimiter env deps) none r (st.bump r)
            ⟨false, deps.helmetHeaders ++ deps.rateLimitHeaders (st.hits r.ip r.time + 1)⟩).push
          ⟨.limiter, .passed⟩).push ⟨.helmet, .passed⟩ := by
  rw [handleRequest, app_eq]
  by_cases h : 100 < st.hits r.ip r.time + 1
  · simp [dispatch_cons, Layer.call, helmetLayer, limiterLayer, limiter, LayerFn.pure, rateLimit,
      limiterOptions, increment, Exchange.init, h, ServerState.bump, Run.push]
  · simp [dispatch_cons, Layer.call, helmetLayer, limiterLayer, limiter, LayerFn.pure, rateLimit,
      limiterOptions, increment, Exchange.init, h, ServerState.bump]

theorem afterLimiter_keeps_clients (env : Env) (deps : Deps) (r : Request) :
    ∀ l ∈ afterLimiter env deps, ∀ (p : Option Err) (st0 : ServerState) (x0 : Exchange)
      (out : ServerState × Outcome), l.call p r st0 x0 = some out →
        out.1.clients = st0.clients := by
  intro l hl p st0 x0 out hc
  rw [afterLimiter_eq] at hl
  simp only [List.mem_cons, List.mem_append, List.not_mem_nil, or_false] at hl
  have pure_ok : ∀ (n : StageName) (a : Request → Bool) (f : Request → Exchange → Outcome),
      l = ⟨n, a, LayerFn.pure f⟩ → out.1.clients = st0.clients := by
    intro n a f hl
    subst hl
    cases p <;> simp only [Layer.call, LayerFn.pure] at hc <;> split at hc <;> simp at hc
    rw [← hc]
  rcases hl with h | h | h | h | h | h | h | h | h | h | h
  · exact pure_ok _ _ _ h
  · exact pure_ok _ _ _ h
  · exact pure_ok _ _ _ h
  · split at h
    · simp only [List.mem_singleton] at h; exact pure_ok _ _ _ h
    · simp at h
  · exact pure_ok _ _ _ h
  · exact pure_ok _ _ _ h
  · exact pure_ok _ _ _ h
  · exact pure_ok _ _ _ h
  · exact pure_ok _ _ _ h
  · subst h
    cases p <;> simp only [Layer.call, errorLayer, errorHandler] at hc <;> simp at hc
    rw [← hc]
  · exact pure_ok _ _ _ h

/-- Every request is counted in the store under its IP, whatever the walk does
with it, and no other record changes. -/
theorem handleRequest_clients (env : Env) (deps : Deps) (st : ServerState) (r : Request) :
    (handleRequest env deps st r).state.clients =
      Function.update st.clients r.ip (some (increment 900000 st r.ip r.time)) := by
  rw [handleRequest_eq]
  split
  · rfl
  · simp only [Run.push_state]
    rw [dispatch_clients r _ _ _ _ (afterLimiter_keeps_clients env deps r)]
    rfl

/-- While the window of a client runs, each of its requests adds one hit and
the end of the window stays. -/
theorem hits_running (env : Env) (deps : Deps) (r : Request) (T : Nat) :
    ∀ (rs : List Request) (st : ServerState) (k : Nat),
      st.clients r.ip = some ⟨k, T⟩ → allBefore r.ip T (rs ++ [r]) = true →
      (stateAfter env deps st rs).hits r.ip r.time = k + hitsFrom r.ip rs := by
  intro rs
  induction rs with
  | nil =>
    intro st k hst hall
    have hr : r.time < T := by simpa [allBefore] using hall
    simp [stateAfter, hitsFrom, ServerState.hits, hst, Nat.not_le.mpr hr]
  | cons q rs ih =>
    intro st k hst hall
    have hq : (q.ip ≠ r.ip ∨ q.time < T) ∧ allBefore r.ip T (rs ++ [r]) = true := by
      simpa [allBefore] using hall
    have hstep : stateAfter env deps st (q :: rs) =
        stateAfter env deps (handleRequest env deps st q).state rs := rfl
    rw [hstep]
    by_cases hip : q.ip = r.ip
    · have hqT : q.time < T := by
        rcases hq.1 with h | h
        · exact absurd hip h
        · exact h
      have hnew : (handleRequest env deps st q).state.clients r.ip = some ⟨k + 1, T⟩ := by
        rw [handleRequest_clients, hip]
        simp [increment, ServerState.hits, ServerState.windowEnd, hst, Nat.not_le.mpr hqT]
      rw [ih _ (k + 1) hnew hq.2]
      simp [hitsFrom, List.filter_cons, hip]
      omega
    · have hsame : (handleRequest env deps st q).state.clients r.ip = some ⟨k, T⟩ := by
        rw [handleRequest_clients, Function.update_noteq (Ne.symm hip), hst]
      rw [ih _ k hsame hq.2]
      simp [hitsFrom, List.filter_cons, hip]

/-- Inside one window the hits the store holds for a client are the number of
its requests so far. -/
theorem hits_in_window (env : Env) (deps : Deps) (r : Request) :
    ∀ (pre : List Request) (st : ServerState),
      st.clients r.ip = none → inOneWindow 900000 r.ip (pre ++ [r]) = true →
      (stateAfter env deps st pre).hits r.ip r.time = hitsFrom r.ip pre := by
  intro pre
  induction pre with
  | nil =>
    intro st hst _
    simp [stateAfter, hitsFrom, ServerState.hits, hst]
  | cons q rs ih =>
    intro st hst hwin
    have hstep : stateAfter env deps st (q :: rs) =
        stateAfter env deps (handleRequest env deps st q).state rs := rfl
    rw [hstep]
    by_cases hip : q.ip = r.ip
    · have hall : allBefore r.ip (q.time + 900000) (rs ++ [r]) = true := by
        simpa [inOneWindow, hip] using hwin
      have hnew : (handleRequest env deps st q).state.clients r.ip =
          some ⟨0 + 1, q.time + 900000⟩ := by
        rw [handleRequest_clients, hip]
        simp [increment, ServerState.hits, ServerState.windowEnd, hst]
      rw [hits_running env deps r (q.time + 900000) rs _ (0 + 1) hnew hall]
      simp [hitsFrom, List.filter_cons, hip]
      omega
    · have hsame : (handleRequest env deps st q).state.clients r.ip = none := by
        rw [handleRequest_clients, Function.update_noteq (Ne.symm hip), hst]
      have hrest : inOneWindow 900000 r.ip (rs ++ [r]) = true := by
        simpa [inOneWindow, hip] using hwin
      rw [ih _ hsame hrest]
      simp [hitsFrom, List.filter_cons, hip]

/-- The window a client's record carries ends no later than a window after the
latest of its requests. -/
theorem reset_bound (env : Env) (deps : Deps) (ip : String) (bound : Nat) :
    ∀ (pre : List Request) (st : ServerState),
      (∀ c, st.clients ip = some c → c.resetTime ≤ bound) →
      (∀ q ∈ pre, q.ip = ip → q.time + 900000 ≤ bound) →
      ∀ c, (stateAfter env deps st pre).clients ip = some c → c.resetTime ≤ bound := by
  intro pre
  induction pre with
  | nil => intro st hst _ c hc; exact hst c hc
  | cons q rs ih =>
    intro st hst hpre
    have hstep : stateAfter env deps st (q :: rs) =
        stateAfter env deps (handleRequest env deps st q).state rs := rfl
    rw [hstep]
    apply ih
    · intro c hc
      rw [handleRequest_clients] at hc
      by_cases hip : q.ip = ip
      · subst hip
        have hq := hpre q (List.mem_cons_self _ _) rfl
        simp only [Function.update_same, Option.some.injEq] at hc
        subst hc
        simp only [increment, ServerState.windowEnd]
        cases hcl : st.clients q.ip with
        | none => simpa using hq
        | some c0 =>
          have := hst c0 hcl
          simp only
          split <;> omega
      · rw [Function.update_noteq (Ne.symm hip)] at hc
        exact hst c hc
    · intro q1 hq1 hip
      exact hpre q1 (List.mem_cons_of_mem _ hq1) hip

/-- The stack as an explicit list, in development mode. -/
theorem app_dev (env : Env) (deps : Deps) (h : env.NODE_ENV = some "development") :
    app env deps =
      [helmetLayer deps, limiterLayer deps, corsLayer env, jsonLayer, urlencodedLayer,
        morganLayer, staticLayer deps, authLayer deps, adminLayer deps, publicLayer deps,
        healthLayer, errorLayer env, notFoundLayer] := by
  simp [app, baseStack, h]

/-- The stack as an explicit list, outside development mode. -/
theorem app_nondev (env : Env) (deps : Deps) (h : env.NODE_ENV ≠ some "development") :
    app env deps =
      [helmetLayer deps, limiterLayer deps, corsLayer env, jsonLayer, urlencodedLayer,
        staticLayer deps, authLayer deps, adminLayer deps, publicLayer deps,
        healthLayer, errorLayer env, notFoundLayer] := by
  simp [app, baseStack, h]

/-- The error handler called with a pending error. -/
theorem errorLayer_call (env : Env) (e : Err) (r : Request) (st : ServerState) (x : Exchange) :
    (errorLayer env).call (some e) r st x =
      some ({ st with console := st.console ++ [⟨.stderr, [e.stack]⟩] },
        .done ⟨500, x.headers, errorBody env e⟩) := by
  simp [Layer.call, errorLayer, errorHandler]

/-- A request handler is skipped while an error is pending. -/
theorem dispatch_pending_normal (n : StageName) (a : Request → Bool) (h : Handler)
    (rest : List Layer) (e : Err) (r : Request) (st : ServerState) (x : Exchange) :
    dispatch (Layer.mk n a (.normal h) :: rest) (some e) r st x =
      dispatch rest (some e) r st x := by
  rw [dispatch_cons]
  simp [Layer.call]

/-- The error handler answers a pending error with status 500 and prints the stack. -/
theorem dispatch_errorLayer (env : Env) (rest : List Layer) (e : Err) (r : Request)
    (st : ServerState) (x : Exchange) :
    dispatch (errorLayer env :: rest) (some e) r st x =
      ⟨{ st with console := st.console ++ [⟨.stderr, [e.stack]⟩] },
        [⟨.errorHandler, .ended⟩], .response ⟨500, x.headers, errorBody env e⟩⟩ := by
  rw [dispatch_cons, errorLayer_call]
  rfl

/-- The walk behind any stage registered ahead of the error handler, with an
error pending: every request handler on the way is skipped and the error
handler answers. -/
theorem error_reaches_handler (env : Env) (deps : Deps) (e : Err) (r : Request)
    (st : ServerState) (x : Exchange) (i : Nat) (l : Layer)
    (hl : (app env deps)[i]? = some l) (h1 : l.name ≠ .errorHandler) (h2 : l.name ≠ .notFound) :
    dispatch ((app env deps).drop (i + 1)) (some e) r st x =
      ⟨{ st with console := st.console ++ [⟨.stderr, [e.stack]⟩] },
        [⟨.errorHandler, .ended⟩], .response ⟨500, x.headers, errorBody env e⟩⟩ := by
  by_cases hdev : env.NODE_ENV = some "development"
  · rw [app_dev env deps hdev] at hl ⊢
    have hi : i < 13 := by
      rcases Nat.lt_or_ge i 13 with h | h
      · exact h
      · rw [List.getElem?_eq_none (by simpa using h)] at hl; cases hl
    interval_cases i <;> simp at hl <;> subst hl <;>
      first
      | (exfalso; exact h1 rfl)
      | (exfalso; exact h2 rfl)
      | simp [dispatch_pending_normal, dispatch_errorLayer, LayerFn.pure, jsonLayer,
          urlencodedLayer, morganLayer, staticLayer, authLayer, adminLayer, publicLayer,
          healthLayer, limiterLayer, corsLayer]
  · rw [app_nondev env deps hdev] at hl ⊢
    have hi : i < 12 := by
      rcases Nat.lt_or_ge i 12 with h | h
      · exact h
      · rw [List.getElem?_eq_none (by simpa using h)] at hl; cases hl
    interval_cases i <;> simp at hl <;> subst hl <;>
      first
      | (exfalso; exact h1 rfl)
      | (exfalso; exact h2 rfl)
      | simp [dispatch_pending_normal, dispatch_errorLayer, LayerFn.pure, jsonLayer,
          urlencodedLayer, morganLayer, staticLayer, authLayer, adminLayer, publicLayer,
          healthLayer, limiterLayer, corsLayer]

/-! ## The cross-origin stage and the body parsers -/

/-- The cross-origin stage on a request that is not a preflight: headers, then `next()`. -/
theorem dispatch_cors_pass (env : Env) (rest : List Layer) (r : Request) (st : ServerState)
    (x : Exchange) (hm : r.method ≠ .OPTIONS) :
    dispatch (corsLayer env :: rest) none r st x =
      (dispatch rest none r st
        ⟨x.bodyParsed, x.headers ++ corsBaseHeaders (allowedOrigin env)⟩).push
        ⟨.cors, .passed⟩ := by
  rw [dispatch_cons]
  simp [Layer.call, corsLayer, LayerFn.pure, corsMiddleware, hm]

/-- The cross-origin stage on an OPTIONS request: the stage answers 204 itself. -/
theorem dispatch_cors_preflight (env : Env) (rest : List Layer) (r : Request) (st : ServerState)
    (x : Exchange) (hm : r.method = .OPTIONS) :
    dispatch (corsLayer env :: rest) none r st x =
      ⟨st, [⟨.cors, .ended⟩],
        .response ⟨204, x.headers ++ corsBaseHeaders (allowedOrigin env) ++
          corsPreflightHeaders r ++ [("Content-Length", "0")], .empty⟩⟩ := by
  rw [dispatch_cons]
  simp [Layer.call, corsLayer, LayerFn.pure, corsMiddleware, hm]

/-- A body parser never ends the response. -/
theorem bodyParser_not_done (mt : MediaType) (r : Request) (x : Exchange) (res : Response) :
    bodyParser mt r x ≠ .done res := by
  intro h
  simp only [bodyParser] at h
  repeat' split at h
  all_goals cases h

/-- The JSON body parser is called on every request that arrives at it, and
either passes the request on or raises. -/
theorem dispatch_json (rest : List Layer) (r : Request) (st : ServerState) (x : Exchange) :
    dispatch (jsonLayer :: rest) none r st x =
      match bodyParser .json r x with
      | .next x1 => (dispatch rest none r st x1).push ⟨.json, .passed⟩
      | .fail e x1 => (dispatch rest (some e) r st x1).push ⟨.json, .raised e⟩
      | .done res => ⟨st, [⟨.json, .ended⟩], .response res⟩ := by
  rw [dispatch_cons]
  have hc : jsonLayer.call none r st x = some (st, bodyParser .json r x) := by
    simp [Layer.call, jsonLayer, LayerFn.pure]
  rw [hc]
  cases bodyParser .json r x <;> rfl

/-- A body of the parser's media type over the limit makes the parser raise. -/
theorem bodyParser_too_large (mt : MediaType) (r : Request) (x : Exchange) (p : Payload)
    (hx : x.bodyParsed = false) (hp : r.payload = some p) (hmt : p.mediaType = mt)
    (hlen : bodyLimit < p.length) : bodyParser mt r x = .fail tooLarge x := by
  simp [bodyParser, hx, hp, hmt, hlen]

/-- A well-formed body of the parser's media type within the limit is parsed
and the request passed on. -/
theorem bodyParser_accepts (mt : MediaType) (r : Request) (x : Exchange) (p : Payload)
    (hx : x.bodyParsed = false) (hp : r.payload = some p) (hmt : p.mediaType = mt)
    (hlen : p.length ≤ bodyLimit) (hok : p.syntaxError = none) :
    bodyParser mt r x = .next ⟨true, x.headers⟩ := by
  simp [bodyParser, hx, hp, hmt, Nat.not_lt.mpr hlen, hok]

/-- The URL-encoded body parser is called on every request that arrives at it. -/
theorem dispatch_urlencoded (rest : List Layer) (r : Request) (st : ServerState) (x : Exchange) :
    dispatch (urlencodedLayer :: rest) none r st x =
      match bodyParser .urlencoded r x with
      | .next x1 => (dispatch rest none r st x1).push ⟨.urlencoded, .passed⟩
      | .fail e x1 => (dispatch rest (some e) r st x1).push ⟨.urlencoded, .raised e⟩
      | .done res => ⟨st, [⟨.urlencoded, .ended⟩], .response res⟩ := by
  rw [dispatch_cons]
  have hc : urlencodedLayer.call none r st x = some (st, bodyParser .urlencoded r x) := by
    simp [Layer.call, urlencodedLayer, LayerFn.pure]
  rw [hc]
  cases bodyParser .urlencoded r x <;> rfl

/-- A request without a body, or with a well-formed body within the limit,
passes a body parser with the response headers unchanged. -/
theorem bodyParser_passes (mt : MediaType) (r : Request) (x : Exchange)
    (h : ∀ p, r.payload = some p → p.length ≤ bodyLimit ∧ p.syntaxError = none) :
    ∃ b, bodyParser mt r x = .next ⟨b, x.headers⟩ := by
  unfold bodyParser
  split
  · exact ⟨x.bodyParsed, rfl⟩
  · cases hp : r.payload with
    | none => exact ⟨x.bodyParsed, rfl⟩
    | some p =>
      obtain ⟨hlen, hok⟩ := h p hp
      by_cases hmt : p.mediaType = mt
      · exact ⟨true, by simp [hmt, Nat.not_lt.mpr hlen, hok]⟩
      · exact ⟨x.bodyParsed, by simp [hmt]⟩

/-! ## Rate limiting (C2, C10) -/

/-- The layer behind the limiter is the cross-origin stage, and it is always called. -/
theorem afterLimiter_starts_with_cors (env : Env) (deps : Deps) (r : Request)
    (st : ServerState) (x : Exchange) :
    ∃ sig rest, (dispatch (afterLimiter env deps) none r st x).trace = ⟨.cors, sig⟩ :: rest := by
  rw [afterLimiter_eq, dispatch_cons]
  by_cases hm : r.method = .OPTIONS
  · exact ⟨.ended, [], by simp [Layer.call, corsLayer, LayerFn.pure, corsMiddleware, hm]⟩
  · exact ⟨.passed, _, by simp [Layer.call, corsLayer, LayerFn.pure, corsMiddleware, hm]; rfl⟩

/-- A request the limiter lets through reaches the cross-origin stage. -/
theorem limiter_passes (env : Env) (deps : Deps) (st : ServerState) (r : Request)
    (h : st.hits r.ip r.time + 1 ≤ 100) :
    ∃ sig rest, (handleRequest env deps st r).trace =
      ⟨.helmet, .passed⟩ :: ⟨.limiter, .passed⟩ :: ⟨.cors, sig⟩ :: rest := by
  rw [handleRequest_eq, if_neg (by omega)]
  obtain ⟨sig, rest, hrest⟩ := afterLimiter_starts_with_cors env deps r (st.bump r)
    ⟨false, deps.helmetHeaders ++ deps.rateLimitHeaders (st.hits r.ip r.time + 1)⟩
  exact ⟨sig, rest, by simp [hrest]⟩

/-- A request over the cap is answered by the limiter. -/
theorem limiter_answers (env : Env) (deps : Deps) (st : ServerState) (r : Request)
    (h : 100 < st.hits r.ip r.time + 1) :
    (handleRequest env deps st r).trace = [⟨.helmet, .passed⟩, ⟨.limiter, .ended⟩] ∧
      (handleRequest env deps st r).result.status? = some 429 ∧
      (handleRequest env deps st r).result.body? =
        some (.text "Too many requests from this IP, please try again later.") := by
  rw [handleRequest_eq, if_pos h]
  exact ⟨rfl, rfl, rfl⟩

/-- C2: the limiter is configured with a window of 900000 ms and a cap of 100.
For every sequence of requests handled since start-up and a next request `r`
such that the requests of `r`'s IP, `r` included, lie inside one window (the
first opens it, the others arrive less than 900000 ms later): with `n` the
number of requests of that IP so far, `r` included, the limiter hands `r` on
to the next stage (the cross-origin stage) when `n ≤ 100` and answers it
itself with status 429 and the configured message when `n > 100`; it answers
exactly when `n` exceeds 100. A request that arrives when every earlier request
of its IP is at least 900000 ms old falls into a new window and is handed on,
however many requests came before. -/
theorem rate_limit_window (env : Env) (deps : Deps) (pre : List Request) (r : Request) :
    limiterOptions.windowMs = 900000 ∧ limiterOptions.max = 100 ∧
    (inOneWindow 900000 r.ip (pre ++ [r]) = true →
      (hitsFrom r.ip pre + 1 ≤ 100 →
        ∃ sig rest, (handleRequest env deps (stateAfter env deps freshState pre) r).trace =
          ⟨.helmet, .passed⟩ :: ⟨.limiter, .passed⟩ :: ⟨.cors, sig⟩ :: rest) ∧
      (100 < hitsFrom r.ip pre + 1 →
        (handleRequest env deps (stateAfter env deps freshState pre) r).trace =
            [⟨.helmet, .passed⟩, ⟨.limiter, .ended⟩] ∧
          (handleRequest env deps (stateAfter env deps freshState pre) r).result.status? =
            some 429 ∧
          (handleRequest env deps (stateAfter env deps freshState pre) r).result.body? =
            some (.text "Too many requests from this IP, please try again later.")) ∧
      ((handleRequest env deps (stateAfter env deps freshState pre) r).trace =
          [⟨.helmet, .passed⟩, ⟨.limiter, .ended⟩] ↔ 100 < hitsFrom r.ip pre + 1)) ∧
    ((∀ q ∈ pre, q.ip = r.ip → q.time + 900000 ≤ r.time) →
      ∃ sig rest, (handleRequest env deps (stateAfter env deps freshState pre) r).trace =
        ⟨.helmet, .passed⟩ :: ⟨.limiter, .passed⟩ :: ⟨.cors, sig⟩ :: rest) := by
  refine ⟨rfl, rfl, ?_, ?_⟩
  · intro hwin
    have hcount : (stateAfter env deps freshState pre).hits r.ip r.time = hitsFrom r.ip pre :=
      hits_in_window env deps r pre freshState rfl hwin
    have hpass : hitsFrom r.ip pre + 1 ≤ 100 →
        ∃ sig rest, (handleRequest env deps (stateAfter env deps freshState pre) r).trace =
          ⟨.helmet, .passed⟩ :: ⟨.limiter, .passed⟩ :: ⟨.cors, sig⟩ :: rest := by
      intro h
      exact limiter_passes env deps _ r (by rw [hcount]; exact h)
    have hstop := fun h : 100 < hitsFrom r.ip pre + 1 =>
      limiter_answers env deps (stateAfter env deps freshState pre) r (by rw [hcount]; exact h)
    refine ⟨hpass, hstop, ?_, fun h => (hstop h).1⟩
    intro htrace
    by_contra hle
    obtain ⟨sig, rest, h⟩ := hpass (by omega)
    rw [h] at htrace
    simp at htrace
  · intro hold
    apply limiter_passes
    have hzero : (stateAfter env deps freshState pre).hits r.ip r.time = 0 := by
      have hb := reset_bound env deps r.ip r.time pre freshState
        (by intro c hc; simp [freshState] at hc) hold
      simp only [ServerState.hits]
      cases hcl : (stateAfter env deps freshState pre).clients r.ip with
      | none => rfl
      | some c => simp [hb c hcl]
    omega

/-- C10: a client whose IP already has 100 requests in its current window gets
429 for its next request in that window, whatever the method and path: the
trace ends at the limiter, so neither the static server, a route group, the
health handler nor the 404 responder is called. The hits the store holds for
the client are the number of its requests in the window, and every request, a
health check included, adds one hit to the count of its IP. -/
theorem rate_limit_before_routes (env : Env) (deps : Deps) (pre : List Request) (r : Request)
    (hwin : inOneWindow 900000 r.ip (pre ++ [r]) = true) (hfull : 100 ≤ hitsFrom r.ip pre) :
    (handleRequest env deps (stateAfter env deps freshState pre) r).trace =
        [⟨.helmet, .passed⟩, ⟨.limiter, .ended⟩] ∧
      (handleRequest env deps (stateAfter env deps freshState pre) r).result.status? =
        some 429 ∧
      (handleRequest env deps (stateAfter env deps freshState pre) r).result.body? =
        some (.text "Too many requests from this IP, please try again later.") ∧
      (∀ s ∈ stagesOf (handleRequest env deps (stateAfter env deps freshState pre) r),
        s ≠ .static ∧ s ≠ .auth ∧ s ≠ .admin ∧ s ≠ .pub ∧ s ≠ .health ∧ s ≠ .notFound) ∧
      (stateAfter env deps freshState pre).hits r.ip r.time = hitsFrom r.ip pre ∧
      (∀ (st : ServerState) (q : Request),
        (handleRequest env deps st q).state.hits q.ip q.time = st.hits q.ip q.time + 1) := by
  have hcount : (stateAfter env deps freshState pre).hits r.ip r.time = hitsFrom r.ip pre :=
    hits_in_window env deps r pre freshState rfl hwin
  have heq := handleRequest_eq env deps (stateAfter env deps freshState pre) r
  rw [hcount, if_pos (by omega)] at heq
  refine ⟨by rw [heq], by rw [heq]; rfl, by rw [heq]; rfl, ?_, hcount, ?_⟩
  · intro s hs
    rw [heq] at hs
    simp only [stagesOf, List.map_cons, List.map_nil, List.mem_cons, List.not_mem_nil,
      or_false] at hs
    rcases hs with h | h <;> subst h <;> simp
  · intro st q
    have hend : q.time < st.windowEnd 900000 q.ip q.time := by
      simp only [ServerState.windowEnd]
      cases st.clients q.ip with
      | none => simp
      | some c => simp only; split <;> omega
    simp only [ServerState.hits, handleRequest_clients, Function.update_same, increment,
      Nat.not_le.mpr hend, if_false]

/-! ## Errors raised by route handlers (C1) -/

/-- C1: when a handler of the auth, admin, public or health stage raises an
error `e`, the response of the pipeline has status 500 and the body
`success:false, message:"Something went wrong!", error:E`, where `E` is
`e.message` when `NODE_ENV` is exactly `development` and
`"Internal server error"` for every other value, unset included. The first
part speaks of a whole run in whose trace one of the four stages raised `e`;
the second of the walk behind any of the four stages with `e` pending,
whatever the request and the state in which the error surfaced. -/
theorem handler_error_response (env : Env) (deps : Deps) (e : Err) :
    (∀ (st : ServerState) (r : Request) (s : StageName),
      s = .auth ∨ s = .admin ∨ s = .pub ∨ s = .health →
      (⟨s, .raised e⟩ : Event) ∈ (handleRequest env deps st r).trace →
      (handleRequest env deps st r).result.status? = some 500 ∧
      (handleRequest env deps st r).result.body? =
        some (.json [("success", .bool false), ("message", .str "Something went wrong!"),
          ("error", .str (if env.NODE_ENV = some "development" then e.message
            else "Internal server error"))])) ∧
    (∀ (i : Nat) (l : Layer) (r : Request) (st : ServerState) (x : Exchange),
      (app env deps)[i]? = some l →
      l.name = .auth ∨ l.name = .admin ∨ l.name = .pub ∨ l.name = .health →
      (dispatch ((app env deps).drop (i + 1)) (some e) r st x).result =
        .response ⟨500, x.headers,
          .json [("success", .bool false), ("message", .str "Something went wrong!"),
            ("error", .str (if env.NODE_ENV = some "development" then e.message
              else "Internal server error"))]⟩) := by
  constructor
  · intro st r s hs hin
    obtain ⟨i, l, st1, x1, hl, hname, hres, -⟩ := trace_raised s e r _ _ _ _ hin
    have h1 : l.name ≠ .errorHandler := by rw [hname]; rcases hs with h | h | h | h <;> simp [h]
    have h2 : l.name ≠ .notFound := by rw [hname]; rcases hs with h | h | h | h <;> simp [h]
    rw [handleRequest, hres, error_reaches_handler env deps e r st1 x1 i l hl h1 h2]
    exact ⟨rfl, rfl⟩
  · intro i l r st x hl hs
    have h1 : l.name ≠ .errorHandler := by rcases hs with h | h | h | h <;> simp [h]
    have h2 : l.name ≠ .notFound := by rcases hs with h | h | h | h <;> simp [h]
    rw [error_reaches_handler env deps e r st x i l hl h1 h2]
    rfl

/-! ## The catch-all responder (C3) -/

/-- When every stage called ahead of the last layer of a stack passes the
request on, the walk arrives at the last layer with no error pending. -/
theorem all_passed_reaches_last (r : Request) (last : Layer) :
    ∀ (stack : List Layer) (st : ServerState) (x : Exchange),
      (∀ l ∈ stack, l.name ≠ last.name) →
      (∀ ev ∈ (dispatch (stack ++ [last]) none r st x).trace,
        ev.stage ≠ last.name → ev.signal = .passed) →
      ∃ (st1 : ServerState) (x1 : Exchange),
        (dispatch (stack ++ [last]) none r st x).result = (dispatch [last] none r st1 x1).result ∧
        ∀ ev ∈ (dispatch [last] none r st1 x1).trace,
          ev ∈ (dispatch (stack ++ [last]) none r st x).trace := by
  intro stack
  induction stack with
  | nil => intro st x _ _; exact ⟨st, x, rfl, fun _ h => h⟩
  | cons l rest ih =>
    intro st x hnames hpass
    have hl : l.name ≠ last.name := hnames l (List.mem_cons_self _ _)
    have hrest := fun l1 (h1 : l1 ∈ rest) => hnames l1 (List.mem_cons_of_mem _ h1)
    rw [List.cons_append, dispatch_cons] at hpass ⊢
    cases hc : l.call none r st x with
    | none =>
      rw [hc] at hpass
      simpa using ih st x hrest hpass
    | some out =>
      obtain ⟨st1, o⟩ := out
      rw [hc] at hpass
      cases o with
      | next x1 =>
        obtain ⟨st2, x2, h1, h2⟩ := ih st1 x1 hrest
          (fun ev hev => hpass ev (by simp [hev]))
        exact ⟨st2, x2, by simpa using h1, fun ev hev => by simp [h2 ev hev]⟩
      | fail e1 x1 =>
        have := hpass ⟨l.name, .raised e1⟩ (by simp) hl
        simp at this
      | done res =>
        have := hpass ⟨l.name, .ended⟩ (by simp) hl
        simp at this

/-- The stack is the layers ahead of the catch-all responder followed by it. -/
theorem app_split (env : Env) (deps : Deps) :
    ∃ front, app env deps = front ++ [notFoundLayer] ∧
      ∀ l ∈ front, l.name ≠ notFoundLayer.name := by
  by_cases hdev : env.NODE_ENV = some "development"
  · refine ⟨[helmetLayer deps, limiterLayer deps, corsLayer env, jsonLayer, urlencodedLayer,
      morganLayer, staticLayer deps, authLayer deps, adminLayer deps, publicLayer deps,
      healthLayer, errorLayer env], by rw [app_dev env deps hdev]; rfl, ?_⟩
    intro l hl
    simp only [List.mem_cons, List.not_mem_nil, or_false] at hl
    rcases hl with h | h | h | h | h | h | h | h | h | h | h | h <;> subst h <;>
      simp [helmetLayer, limiterLayer, corsLayer, jsonLayer, urlencodedLayer, morganLayer,
        staticLayer, authLayer, adminLayer, publicLayer, healthLayer, errorLayer, notFoundLayer]
  · refine ⟨[helmetLayer deps, limiterLayer deps, corsLayer env, jsonLayer, urlencodedLayer,
      staticLayer deps, authLayer deps, adminLayer deps, publicLayer deps,
      healthLayer, errorLayer env], by rw [app_nondev env deps hdev]; rfl, ?_⟩
    intro l hl
    simp only [List.mem_cons, List.not_mem_nil, or_false] at hl
    rcases hl with h | h | h | h | h | h | h | h | h | h | h <;> subst h <;>
      simp [helmetLayer, limiterLayer, corsLayer, jsonLayer, urlencodedLayer,
        staticLayer, authLayer, adminLayer, publicLayer, healthLayer, errorLayer, notFoundLayer]

/-- Only the health route carries the name of the health stage. -/
theorem health_layer_unique (env : Env) (deps : Deps) (l : Layer) (hl : l ∈ app env deps)
    (hn : l.name = .health) : l = healthLayer := by
  by_cases hdev : env.NODE_ENV = some "development"
  · rw [app_dev env deps hdev] at hl
    simp only [List.mem_cons, List.not_mem_nil, or_false] at hl
    rcases hl with h | h | h | h | h | h | h | h | h | h | h | h | h <;> subst h <;>
      first
      | rfl
      | simp [helmetLayer, limiterLayer, corsLayer, jsonLayer, urlencodedLayer, morganLayer,
          staticLayer, authLayer, adminLayer, publicLayer, errorLayer, notFoundLayer] at hn
  · rw [app_nondev env deps hdev] at hl
    simp only [List.mem_cons, List.not_mem_nil, or_false] at hl
    rcases hl with h | h | h | h | h | h | h | h | h | h | h | h <;> subst h <;>
      first
      | rfl
      | simp [helmetLayer, limiterLayer, corsLayer, jsonLayer, urlencodedLayer,
          staticLayer, authLayer, adminLayer, publicLayer, errorLayer, notFoundLayer] at hn

/-- C3, amended: a request on which every stage called ahead of the catch-all
responder passes the request on (the cross-cutting stages pass it, and the
static server and the route groups, where their path test accepts it, call
`next()`) is answered with status 404 and the body
`success:false, message:"Route not found"` and no other field. The health
route is called for GET and HEAD only, so a request for `/api/health` with any
other method is not taken by the health route. In particular a request that
the limiter lets through, that is not an OPTIONS request, whose body (if any)
is well-formed and within the limit, whose path is under none of `/uploads`,
`/api/auth`, `/api/admin`, `/api/public`, and that is not a GET or HEAD
request for `/api/health`, gets this 404. -/
theorem not_found_response (env : Env) (deps : Deps) (st : ServerState) (r : Request) :
    ((∀ ev ∈ (handleRequest env deps st r).trace, ev.stage ≠ .notFound → ev.signal = .passed) →
      (handleRequest env deps st r).result.status? = some 404 ∧
      (handleRequest env deps st r).result.body? =
        some (.json [("success", .bool false), ("message", .str "Route not found")]) ∧
      (⟨.notFound, .ended⟩ : Event) ∈ (handleRequest env deps st r).trace) ∧
    (r.method ≠ .GET → r.method ≠ .HEAD →
      StageName.health ∉ stagesOf (handleRequest env deps st r)) ∧
    (st.hits r.ip r.time < 100 → r.method ≠ .OPTIONS →
      (∀ p, r.payload = some p → p.length ≤ bodyLimit ∧ p.syntaxError = none) →
      mountMatches "/uploads" r.path = false → mountMatches "/api/auth" r.path = false →
      mountMatches "/api/admin" r.path = false → mountMatches "/api/public" r.path = false →
      (routeMatches "/api/health" r.path = false ∨ (r.method ≠ .GET ∧ r.method ≠ .HEAD)) →
      (handleRequest env deps st r).result.status? = some 404 ∧
      (handleRequest env deps st r).result.body? =
        some (.json [("success", .bool false), ("message", .str "Route not found")])) := by
  refine ⟨?_, ?_, ?_⟩
  · intro hpass
    obtain ⟨front, hfront, hnames⟩ := app_split env deps
    rw [handleRequest, hfront] at hpass ⊢
    obtain ⟨st1, x1, hres, htr⟩ := all_passed_reaches_last r notFoundLayer front st _ hnames hpass
    have hlast : dispatch [notFoundLayer] none r st1 x1 =
        ⟨st1, [⟨.notFound, .ended⟩], .response ⟨404, x1.headers, notFoundBody⟩⟩ := by
      rw [dispatch_cons]
      simp [Layer.call, notFoundLayer, LayerFn.pure]
    rw [hlast] at hres htr
    rw [hres]
    exact ⟨rfl, rfl, htr _ (by simp)⟩
  · intro hget hhead hin
    obtain ⟨l, p, st0, x0, out, hl, hn, hc, -⟩ := stage_called .health r _ _ _ _ hin
    have := health_layer_unique env deps l hl hn
    subst this
    have hacc : getHandles r.method = false := by
      cases hm : r.method <;> simp_all [getHandles]
    cases p <;> simp [Layer.call, healthLayer, hacc] at hc
  · intro hlim hm hbody h1 h2 h3 h4 h5
    have hacc : (routeMatches "/api/health" r.path && getHandles r.method) = false := by
      rcases h5 with h | ⟨hg, hh⟩
      · simp [h]
      · have : getHandles r.method = false := by
          cases hmeth : r.method <;> simp_all [getHandles]
        simp [this]
    obtain ⟨b1, hb1⟩ := bodyParser_passes .json r
      ⟨false, deps.helmetHeaders ++ deps.rateLimitHeaders (st.hits r.ip r.time + 1) ++
        corsBaseHeaders (allowedOrigin env)⟩ hbody
    obtain ⟨b2, hb2⟩ := bodyParser_passes .urlencoded r
      ⟨b1, deps.helmetHeaders ++ deps.rateLimitHeaders (st.hits r.ip r.time + 1) ++
        corsBaseHeaders (allowedOrigin env)⟩ hbody
    rw [handleRequest_eq, if_neg (by omega), afterLimiter_eq, dispatch_cors_pass _ _ _ _ _ hm,
      dispatch_json, hb1]
    simp only [Run.push_result]
    rw [dispatch_urlencoded, hb2]
    by_cases hdev : env.NODE_ENV = some "development" <;>
      simp [hdev, dispatch_cons, Layer.call, morganLayer, staticLayer, authLayer, adminLayer,
        publicLayer, healthLayer, errorLayer, notFoundLayer, LayerFn.pure, h1, h2, h3, h4, hacc,
        Result.status?, Result.body?, notFoundBody]

/-! ## The health check (C4) -/

/-- C4: whenever the health handler is called, whatever `NODE_ENV` and whatever
else the request carries, the response has status 200 and the body
`success:true, message:"Alfa TechX API is running!", timestamp:T` with `T` the
clock reading rendered by `toISOString`. A `GET /api/health` without a body
from a client within its limit does reach the handler. -/
theorem health_response (env : Env) (deps : Deps) (st : ServerState) (r : Request) :
    (StageName.health ∈ stagesOf (handleRequest env deps st r) →
      ∃ hdrs, (handleRequest env deps st r).result =
        .response ⟨200, hdrs,
          .json [("success", .bool true), ("message", .str "Alfa TechX API is running!"),
            ("timestamp", .str (toISOString r.time))]⟩) ∧
    (r.method = .GET → r.path = "/api/health" → r.payload = none → st.hits r.ip r.time < 100 →
      StageName.health ∈ stagesOf (handleRequest env deps st r)) := by
  constructor
  · intro hin
    obtain ⟨l, p, st0, x0, out, hl, hn, hc, hres⟩ := stage_called .health r _ _ _ _ hin
    have := health_layer_unique env deps l hl hn
    subst this
    have hout : out.2 = .done ⟨200, x0.headers,
        .json [("success", .bool true), ("message", .str "Alfa TechX API is running!"),
          ("timestamp", .str (toISOString r.time))]⟩ := by
      cases p <;> simp only [Layer.call, healthLayer, LayerFn.pure, healthHandler] at hc <;>
        split at hc <;> simp at hc
      rw [← hc]
    exact ⟨x0.headers, hres _ hout⟩
  · intro hm hp hb hlim
    have h1 : mountMatches "/uploads" "/api/health" = false := by decide
    have h2 : mountMatches "/api/auth" "/api/health" = false := by decide
    have h3 : mountMatches "/api/admin" "/api/health" = false := by decide
    have h4 : mountMatches "/api/public" "/api/health" = false := by decide
    have h5 : routeMatches "/api/health" "/api/health" = true := by decide
    rw [handleRequest_eq, if_neg (by omega), afterLimiter_eq]
    by_cases hdev : env.NODE_ENV = some "development" <;>
      simp [hdev, stagesOf, dispatch_cons, Layer.call, corsLayer, jsonLayer, urlencodedLayer,
        morganLayer, staticLayer, authLayer, adminLayer, publicLayer, healthLayer, LayerFn.pure,
        corsMiddleware, bodyParser, healthHandler, getHandles, hm, hp, hb, h1, h2, h3, h4, h5]

/-! ## Start-up (C5, C9) -/

/-- C5: start-up is fail-fast at each of the four registrations. When a step
throws and every earlier step did not, the run ends in `process.exit(1)`; the
stack then holds the base stages and the earlier routes only (no later route,
no error handler, no catch-all responder), the console ends with the
announcement of the step and the error line of its `catch` block, and
`app.listen` is not reached. When no step throws, the run reaches
`app.listen` with the complete stack and without an exit. -/
theorem startup_fail_fast (env : Env) (deps : Deps) (raises : RegStep → Option Err) :
    (∀ (s : RegStep) (e : Err), raises s = some e → (∀ t ∈ s.before, raises t = none) →
      ∃ b, startup env deps raises = .exited 1 b ∧
        stageNames b.stack = baseStages env ++ s.before.map RegStep.stage ∧
        b.console = s.before.flatMap RegStep.lines ++
          [⟨.stdout, [s.announce]⟩, ⟨.stderr, [s.failure, e.stack]⟩]) ∧
    ((∀ s, raises s = none) →
      ∃ b, startup env deps raises = .listening (PORT env) "0.0.0.0" b ∧
        b.stack = app env deps ∧
        stageNames b.stack =
          baseStages env ++ [.auth, .admin, .pub, .health, .errorHandler, .notFound]) := by
  have hbase : stageNames (baseStack env deps) = baseStages env := by
    by_cases hdev : env.NODE_ENV = some "development" <;>
      simp [stageNames, baseStack, baseStages, hdev, helmetLayer, limiterLayer, corsLayer,
        jsonLayer, urlencodedLayer, morganLayer, staticLayer]
  constructor
  · intro s e hs hbefore
    cases s with
    | auth =>
      refine ⟨_, by simp [startup, register, hs]; rfl, ?_, ?_⟩
      · simpa [Boot.log, RegStep.before] using hbase
      · simp [Boot.log, RegStep.before, RegStep.announce, RegStep.failure]
    | admin =>
      have h0 : raises .auth = none := hbefore .auth (by simp [RegStep.before])
      refine ⟨_, by simp [startup, register, hs, h0]; rfl, ?_, ?_⟩
      · simp only [stageNames] at hbase
        simp [Boot.log, RegStep.before, stageNames, hbase, RegStep.layer, RegStep.stage, authLayer]
      · simp [Boot.log, RegStep.before, RegStep.lines, RegStep.announce, RegStep.failure,
          RegStep.success]
    | pub =>
      have h0 : raises .auth = none := hbefore .auth (by simp [RegStep.before])
      have h1 : raises .admin = none := hbefore .admin (by simp [RegStep.before])
      refine ⟨_, by simp [startup, register, hs, h0, h1]; rfl, ?_, ?_⟩
      · simp only [stageNames] at hbase
        simp [Boot.log, RegStep.before, stageNames, hbase, RegStep.layer, RegStep.stage, authLayer,
          adminLayer]
      · simp [Boot.log, RegStep.before, RegStep.lines, RegStep.announce, RegStep.failure,
          RegStep.success]
    | health =>
      have h0 : raises .auth = none := hbefore .auth (by simp [RegStep.before])
      have h1 : raises .admin = none := hbefore .admin (by simp [RegStep.before])
      have h2 : raises .pub = none := hbefore .pub (by simp [RegStep.before])
      refine ⟨_, by simp [startup, register, hs, h0, h1, h2]; rfl, ?_, ?_⟩
      · simp only [stageNames] at hbase
        simp [Boot.log, RegStep.before, stageNames, hbase, RegStep.layer, RegStep.stage, authLayer,
          adminLayer, publicLayer]
      · simp [Boot.log, RegStep.before, RegStep.lines, RegStep.announce, RegStep.failure,
          RegStep.success]
  · intro hnone
    refine ⟨_, by simp [startup, register, hnone, finish]; rfl, ?_, ?_⟩
    · simp [Boot.log, app, RegStep.layer]
    · simp only [stageNames] at hbase
      simp [Boot.log, stageNames, hbase, RegStep.layer, authLayer, adminLayer, publicLayer,
        healthLayer, errorLayer, notFoundLayer]

/-- C9: `app.listen` is called with host `0.0.0.0` and with the value of `PORT`
when that is set and not empty, and with the number 5000 when `PORT` is unset
or empty; the origin the cross-origin stage is configured with, and writes into
`Access-Control-Allow-Origin`, is `FRONTEND_URL` when that is set and not
empty and `http://localhost:3000` otherwise. -/
theorem listen_and_origin_defaults (env : Env) (deps : Deps) :
    (∀ raises : RegStep → Option Err, (∀ s, raises s = none) →
      ∃ b, startup env deps raises = .listening (PORT env) "0.0.0.0" b) ∧
    (∀ (raises : RegStep → Option Err) (port : PortArg) (host : String) (b : Boot),
      startup env deps raises = .listening port host b →
        host = "0.0.0.0" ∧ port = PORT env) ∧
    (∀ p, env.PORT = some p → p ≠ "" → PORT env = .str p) ∧
    (env.PORT = none ∨ env.PORT = some "" → PORT env = .num 5000) ∧
    (∀ u, env.FRONTEND_URL = some u → u ≠ "" → allowedOrigin env = u) ∧
    (env.FRONTEND_URL = none ∨ env.FRONTEND_URL = some "" →
      allowedOrigin env = "http://localhost:3000") ∧
    (∀ (r : Request) (st : ServerState) (x : Exchange),
      ∃ out, (corsLayer env).call none r st x = some (st, out) ∧
        ("Access-Control-Allow-Origin", allowedOrigin env) ∈ out.headers) := by
  refine ⟨?_, ?_, ?_, ?_, ?_, ?_, ?_⟩
  · intro raises hnone
    exact ⟨_, by simp [startup, register, hnone, finish]; rfl⟩
  · intro raises port host b h
    unfold startup at h
    repeat' split at h
    all_goals cases h <;> exact ⟨rfl, rfl⟩
  · intro p hp hne
    simp [PORT, hp, hne]
  · rintro (h | h) <;> simp [PORT, h]
  · intro u hu hne
    simp [allowedOrigin, orDefault, hu, hne]
  · rintro (h | h) <;> simp [allowedOrigin, orDefault, h]
  · intro r st x
    refine ⟨corsMiddleware (allowedOrigin env) r x, by simp [Layer.call, corsLayer, LayerFn.pure], ?_⟩
    by_cases hm : r.method = .OPTIONS <;>
      simp [corsMiddleware, hm, Outcome.headers, corsBaseHeaders]

/-! ## Stage order (C6) -/

/-- Behind the catch-all responder the stack is empty: a pending error there
is left to the final handler of the framework. -/
theorem error_behind_catch_all (env : Env) (deps : Deps) (e : Err) (r : Request)
    (st : ServerState) (x : Exchange) (i : Nat) (l : Layer)
    (hl : (app env deps)[i]? = some l) (hn : l.name = .notFound) :
    dispatch ((app env deps).drop (i + 1)) (some e) r st x = ⟨st, [], .uncaught e⟩ := by
  by_cases hdev : env.NODE_ENV = some "development"
  · rw [app_dev env deps hdev] at hl ⊢
    have hi : i < 13 := by
      rcases Nat.lt_or_ge i 13 with h | h
      · exact h
      · rw [List.getElem?_eq_none (by simpa using h)] at hl; cases hl
    interval_cases i <;> simp at hl <;> subst hl <;>
      first
      | rfl
      | simp [helmetLayer, limiterLayer, corsLayer, jsonLayer, urlencodedLayer, morganLayer,
          staticLayer, authLayer, adminLayer, publicLayer, healthLayer, errorLayer] at hn
  · rw [app_nondev env deps hdev] at hl ⊢
    have hi : i < 12 := by
      rcases Nat.lt_or_ge i 12 with h | h
      · exact h
      · rw [List.getElem?_eq_none (by simpa using h)] at hl; cases hl
    interval_cases i <;> simp at hl <;> subst hl <;>
      first
      | rfl
      | simp [helmetLayer, limiterLayer, corsLayer, jsonLayer, urlencodedLayer, morganLayer,
          staticLayer, authLayer, adminLayer, publicLayer, healthLayer, errorLayer] at hn

/-- C6, as the specification orders the stages: in the registered stack the
error handler is not the last stage. The last stage is the 404 responder, the
stack differs from the order of the specification, and an error pending behind
the 404 responder is not answered by the error handler. -/
theorem stage_order_spec_fails :
    stageNames (app devEnv sampleDeps) ≠ specStageOrder devEnv ∧
    (stageNames (app devEnv sampleDeps)).getLast? = some .notFound ∧
    (dispatch ((app devEnv sampleDeps).drop 13) (some boom) healthCheck freshState
      Exchange.init).result = .uncaught boom := by
  decide

/-- C6, amended: the stages are registered in the order security headers, rate
limiting, cross-origin policy, JSON then URL-encoded body parsing, access
logging (development only), `/uploads` static serving, the auth, admin and
public route groups, the health handler, the error handler, and last the 404
responder. An error raised by any stage ahead of the error handler is answered
by the error handler with status 500; an error pending behind the 404
responder is not. -/
theorem stage_order (env : Env) (deps : Deps) :
    stageNames (app env deps) =
      [.helmet, .limiter, .cors, .json, .urlencoded] ++
        (if env.NODE_ENV = some "development" then [.morgan] else []) ++
        [.static, .auth, .admin, .pub, .health, .errorHandler, .notFound] ∧
    (∀ (i : Nat) (l : Layer) (e : Err) (r : Request) (st : ServerState) (x : Exchange),
      (app env deps)[i]? = some l → l.name ≠ .errorHandler → l.name ≠ .notFound →
      dispatch ((app env deps).drop (i + 1)) (some e) r st x =
        ⟨{ st with console := st.console ++ [⟨.stderr, [e.stack]⟩] },
          [⟨.errorHandler, .ended⟩], .response ⟨500, x.headers, errorBody env e⟩⟩) ∧
    (∀ (i : Nat) (l : Layer) (e : Err) (r : Request) (st : ServerState) (x : Exchange),
      (app env deps)[i]? = some l → l.name = .notFound →
      dispatch ((app env deps).drop (i + 1)) (some e) r st x = ⟨st, [], .uncaught e⟩) := by
  refine ⟨?_, ?_, ?_⟩
  · by_cases hdev : env.NODE_ENV = some "development"
    · rw [app_dev env deps hdev]
      simp [hdev, stageNames, helmetLayer, limiterLayer, corsLayer, jsonLayer, urlencodedLayer,
        morganLayer, staticLayer, authLayer, adminLayer, publicLayer, healthLayer, errorLayer,
        notFoundLayer]
    · rw [app_nondev env deps hdev]
      simp [hdev, stageNames, helmetLayer, limiterLayer, corsLayer, jsonLayer, urlencodedLayer,
        staticLayer, authLayer, adminLayer, publicLayer, healthLayer, errorLayer, notFoundLayer]
  · intro i l e r st x hl h1 h2
    exact error_reaches_handler env deps e r st x i l hl h1 h2
  · intro i l e r st x hl hn
    exact error_behind_catch_all env deps e r st x i l hl hn

/-! ## Cross-origin policy (C7) -/

/-- C7, as stated: a request whose `Origin` differs from the configured origin
is not rejected. `GET /api/health` from `https://evil.example`, with the
configured origin `http://localhost:3000`, passes the cross-origin stage and is
answered 200 by the health handler. -/
theorem cors_foreign_origin_served :
    healthCheck.origin ≠ some (allowedOrigin prodEnv) ∧
    (⟨.cors, .passed⟩ : Event) ∈ (handleRequest prodEnv sampleDeps freshState healthCheck).trace ∧
    (⟨.health, .ended⟩ : Event) ∈ (handleRequest prodEnv sampleDeps freshState healthCheck).trace ∧
    (handleRequest prodEnv sampleDeps freshState healthCheck).result.status? = some 200 := by
  decide

/-- C7, amended: the cross-origin stage does not look at the `Origin` header.
For every request that is not an OPTIONS request it writes
`Access-Control-Allow-Origin` with the configured origin, `Vary: Origin` and
`Access-Control-Allow-Credentials: true` and passes the request on, so a
request the limiter lets through reaches the next stage; an OPTIONS request is
answered by the stage itself with status 204 and the same headers, and no
later stage is called. Changing the `Origin` header changes nothing, and the
200 response to a `GET /api/health` carries the two headers whatever the
`Origin` of the request. -/
theorem cors_never_rejects (env : Env) (deps : Deps) (r : Request) :
    (∀ x : Exchange, r.method ≠ .OPTIONS →
      corsMiddleware (allowedOrigin env) r x =
        .next ⟨x.bodyParsed, x.headers ++
          [("Access-Control-Allow-Origin", allowedOrigin env), ("Vary", "Origin"),
            ("Access-Control-Allow-Credentials", "true")]⟩) ∧
    (∀ x : Exchange, r.method = .OPTIONS →
      ∃ hdrs, corsMiddleware (allowedOrigin env) r x = .done ⟨204, hdrs, .empty⟩ ∧
        ("Access-Control-Allow-Origin", allowedOrigin env) ∈ hdrs ∧
        ("Access-Control-Allow-Credentials", "true") ∈ hdrs) ∧
    (∀ st : ServerState, st.hits r.ip r.time < 100 → r.method ≠ .OPTIONS →
      ∃ sig rest, (handleRequest env deps st r).trace =
        ⟨.helmet, .passed⟩ :: ⟨.limiter, .passed⟩ :: ⟨.cors, .passed⟩ :: ⟨.json, sig⟩ :: rest) ∧
    (∀ st : ServerState, st.hits r.ip r.time < 100 → r.method = .OPTIONS →
      (handleRequest env deps st r).trace =
          [⟨.helmet, .passed⟩, ⟨.limiter, .passed⟩, ⟨.cors, .ended⟩] ∧
        (handleRequest env deps st r).result.status? = some 204) ∧
    (∀ (o : Option String) (x : Exchange),
      corsMiddleware (allowedOrigin env) { r with origin := o } x =
        corsMiddleware (allowedOrigin env) r x) ∧
    (∀ st : ServerState, st.hits r.ip r.time < 100 → r.method = .GET → r.path = "/api/health" →
      r.payload = none →
      ∃ res, (handleRequest env deps st r).result = .response res ∧ res.status = 200 ∧
        ("Access-Control-Allow-Origin", allowedOrigin env) ∈ res.headers ∧
        ("Access-Control-Allow-Credentials", "true") ∈ res.headers) := by
  refine ⟨?_, ?_, ?_, ?_, ?_, ?_⟩
  · intro x hm
    simp [corsMiddleware, hm, corsBaseHeaders]
  · intro x hm
    exact ⟨_, by simp [corsMiddleware, hm]; rfl, by simp [corsBaseHeaders],
      by simp [corsBaseHeaders]⟩
  · intro st hlim hm
    rw [handleRequest_eq, if_neg (by omega), afterLimiter_eq, dispatch_cors_pass _ _ _ _ _ hm,
      dispatch_json]
    cases hb : bodyParser .json r
        ⟨false, deps.helmetHeaders ++ deps.rateLimitHeaders (st.hits r.ip r.time + 1) ++
          corsBaseHeaders (allowedOrigin env)⟩ with
    | next x1 => exact ⟨.passed, _, rfl⟩
    | fail e1 x1 => exact ⟨.raised e1, _, rfl⟩
    | done res => exact absurd hb (bodyParser_not_done _ _ _ _)
  · intro st hlim hm
    rw [handleRequest_eq, if_neg (by omega), afterLimiter_eq, dispatch_cors_preflight _ _ _ _ _ hm]
    exact ⟨rfl, rfl⟩
  · intro o x
    rfl
  · intro st hlim hm hp hb
    have h1 : mountMatches "/uploads" "/api/health" = false := by decide
    have h2 : mountMatches "/api/auth" "/api/health" = false := by decide
    have h3 : mountMatches "/api/admin" "/api/health" = false := by decide
    have h4 : mountMatches "/api/public" "/api/health" = false := by decide
    have h5 : routeMatches "/api/health" "/api/health" = true := by decide
    have hopt : r.method ≠ .OPTIONS := by rw [hm]; decide
    rw [handleRequest_eq, if_neg (by omega), afterLimiter_eq, dispatch_cors_pass _ _ _ _ _ hopt]
    by_cases hdev : env.NODE_ENV = some "development" <;>
      simp [hdev, dispatch_cons, Layer.call, jsonLayer, urlencodedLayer, morganLayer,
        staticLayer, authLayer, adminLayer, publicLayer, healthLayer, LayerFn.pure, bodyParser,
        healthHandler, getHandles, hm, hp, hb, h1, h2, h3, h4, h5, corsBaseHeaders]

/-! ## Body size limit (C8) -/

/-- A body of the parser's media type within the limit that the parser does
not accept makes the parser raise the syntax error. -/
theorem bodyParser_malformed (mt : MediaType) (r : Request) (x : Exchange) (p : Payload)
    (msg : String) (hx : x.bodyParsed = false) (hp : r.payload = some p)
    (hmt : p.mediaType = mt) (hlen : p.length ≤ bodyLimit) (hbad : p.syntaxError = some msg) :
    bodyParser mt r x = .fail (malformed msg) x := by
  simp [bodyParser, hx, hp, hmt, Nat.not_lt.mpr hlen, hbad]

/-- The run of a request on which the JSON body parser raises: the remaining
request handlers are skipped and the error handler answers. -/
theorem json_raise_run (env : Env) (deps : Deps) (st : ServerState) (r : Request) (e : Err)
    (hlim : st.hits r.ip r.time < 100) (hm : r.method ≠ .OPTIONS)
    (hfail : ∀ x : Exchange, x.bodyParsed = false → bodyParser .json r x = .fail e x) :
    handleRequest env deps st r =
      ⟨{ st.bump r with console := (st.bump r).console ++ [⟨.stderr, [e.stack]⟩] },
        [⟨.helmet, .passed⟩, ⟨.limiter, .passed⟩, ⟨.cors, .passed⟩,
          ⟨.json, .raised e⟩, ⟨.errorHandler, .ended⟩],
        .response ⟨500, deps.helmetHeaders ++ deps.rateLimitHeaders (st.hits r.ip r.time + 1) ++
          corsBaseHeaders (allowedOrigin env), errorBody env e⟩⟩ := by
  rw [handleRequest_eq, if_neg (by omega), afterLimiter_eq, dispatch_cors_pass _ _ _ _ _ hm,
    dispatch_json, hfail _ rfl]
  by_cases hdev : env.NODE_ENV = some "development" <;>
    simp [hdev, dispatch_pending_normal, dispatch_errorLayer, LayerFn.pure, urlencodedLayer,
      morganLayer, staticLayer, authLayer, adminLayer, publicLayer, healthLayer, Run.push]

/-- C8, as stated: not every request with an oversized JSON body gets an error
response, and not every body of content type JSON within the limit is passed
on. An OPTIONS request with a JSON body of 10 MB plus one byte is answered 204
by the cross-origin stage and never reaches the body parser; a five-byte body
of content type JSON that is not JSON text makes the parser raise, and the
request is answered 500 instead of being passed on. -/
theorem oversized_json_spec_fails :
    (bigOptions.payload = some ⟨.json, 10485761, none⟩ ∧
      (handleRequest prodEnv sampleDeps freshState bigOptions).result.status? = some 204 ∧
      StageName.json ∉ stagesOf (handleRequest prodEnv sampleDeps freshState bigOptions)) ∧
    (brokenPost.payload =
        some ⟨.json, 5, some "Unexpected token b in JSON at position 1"⟩ ∧
      (⟨.json, .passed⟩ : Event) ∉ (handleRequest prodEnv sampleDeps freshState brokenPost).trace ∧
      StageName.pub ∉ stagesOf (handleRequest prodEnv sampleDeps freshState brokenPost) ∧
      (handleRequest prodEnv sampleDeps freshState brokenPost).result.status? = some 500) := by
  decide

/-- C8, amended: the limit is 10 * 1024 * 1024 bytes. For a request with a
JSON body over the limit no static, route-group, health or 404 handler is
called; when the request reaches the body parser (the limiter lets it through
and it is not an OPTIONS request) the parser raises, the error handler answers
with status 500, and the `error` field is the parser's message in development
mode and `"Internal server error"` otherwise. A well-formed JSON body within
the limit, on a request that reaches the parser, is parsed and the request is
passed on to the next stage. A body of content type JSON within the limit that
is not JSON text, on a request that reaches the parser, makes the parser raise
the syntax error, no later request handler is called, and the error handler
answers with status 500. -/
theorem oversized_json_rejected (env : Env) (deps : Deps) (st : ServerState) (r : Request)
    (p : Payload) (hp : r.payload = some p) (hjson : p.mediaType = .json) :
    bodyLimit = 10485760 ∧
    (bodyLimit < p.length →
      (∀ s ∈ stagesOf (handleRequest env deps st r),
        s ≠ .static ∧ s ≠ .auth ∧ s ≠ .admin ∧ s ≠ .pub ∧ s ≠ .health ∧ s ≠ .notFound) ∧
      (st.hits r.ip r.time < 100 → r.method ≠ .OPTIONS →
        (handleRequest env deps st r).trace =
          [⟨.helmet, .passed⟩, ⟨.limiter, .passed⟩, ⟨.cors, .passed⟩,
            ⟨.json, .raised tooLarge⟩, ⟨.errorHandler, .ended⟩] ∧
        (handleRequest env deps st r).result.status? = some 500 ∧
        (handleRequest env deps st r).result.body? =
          some (.json [("success", .bool false), ("message", .str "Something went wrong!"),
            ("error", .str (if env.NODE_ENV = some "development"
              then "request entity too large" else "Internal server error"))]))) ∧
    (p.length ≤ bodyLimit → p.syntaxError = none → st.hits r.ip r.time < 100 → r.method ≠ .OPTIONS →
      (∀ hdrs, bodyParser .json r ⟨false, hdrs⟩ = .next ⟨true, hdrs⟩) ∧
      ∃ sig rest, (handleRequest env deps st r).trace =
        ⟨.helmet, .passed⟩ :: ⟨.limiter, .passed⟩ :: ⟨.cors, .passed⟩ :: ⟨.json, .passed⟩ ::
          ⟨.urlencoded, sig⟩ :: rest) ∧
    (∀ msg, p.length ≤ bodyLimit → p.syntaxError = some msg → st.hits r.ip r.time < 100 →
      r.method ≠ .OPTIONS →
      (handleRequest env deps st r).trace =
        [⟨.helmet, .passed⟩, ⟨.limiter, .passed⟩, ⟨.cors, .passed⟩,
          ⟨.json, .raised ⟨msg, "SyntaxError: " ++ msg, some 400⟩⟩, ⟨.errorHandler, .ended⟩] ∧
      (handleRequest env deps st r).result.status? = some 500 ∧
      (handleRequest env deps st r).result.body? =
        some (.json [("success", .bool false), ("message", .str "Something went wrong!"),
          ("error", .str (if env.NODE_ENV = some "development"
            then msg else "Internal server error"))])) := by
  have hrun : bodyLimit < p.length → st.hits r.ip r.time < 100 → r.method ≠ .OPTIONS →
      handleRequest env deps st r =
        ⟨{ st.bump r with console := (st.bump r).console ++ [⟨.stderr, [tooLarge.stack]⟩] },
          [⟨.helmet, .passed⟩, ⟨.limiter, .passed⟩, ⟨.cors, .passed⟩,
            ⟨.json, .raised tooLarge⟩, ⟨.errorHandler, .ended⟩],
          .response ⟨500, deps.helmetHeaders ++ deps.rateLimitHeaders (st.hits r.ip r.time + 1) ++
            corsBaseHeaders (allowedOrigin env), errorBody env tooLarge⟩⟩ := by
    intro hlen hlim hm
    exact json_raise_run env deps st r tooLarge hlim hm
      (fun x hx => bodyParser_too_large .json r x p hx hp hjson hlen)
  refine ⟨rfl, ?_, ?_, ?_⟩
  · intro hlen
    constructor
    · intro s hs
      by_cases hlim : st.hits r.ip r.time < 100
      · by_cases hm : r.method = .OPTIONS
        · rw [handleRequest_eq, if_neg (by omega), afterLimiter_eq,
            dispatch_cors_preflight _ _ _ _ _ hm] at hs
          simp only [stagesOf, Run.push_trace, List.map_cons, List.map_nil, List.mem_cons,
            List.not_mem_nil, or_false] at hs
          rcases hs with h | h | h <;> subst h <;> simp
        · rw [hrun hlen hlim hm] at hs
          simp only [stagesOf, List.map_cons, List.map_nil, List.mem_cons,
            List.not_mem_nil, or_false] at hs
          rcases hs with h | h | h | h | h <;> subst h <;> simp
      · rw [handleRequest_eq, if_pos (by omega)] at hs
        simp only [stagesOf, List.map_cons, List.map_nil, List.mem_cons,
          List.not_mem_nil, or_false] at hs
        rcases hs with h | h <;> subst h <;> simp
    · intro hlim hm
      rw [hrun hlen hlim hm]
      refine ⟨rfl, rfl, ?_⟩
      simp [Result.body?, errorBody, errorDetail, tooLarge]
  · intro hlen hok hlim hm
    refine ⟨fun hdrs => bodyParser_accepts .json r _ p rfl hp hjson hlen hok, ?_⟩
    rw [handleRequest_eq, if_neg (by omega), afterLimiter_eq, dispatch_cors_pass _ _ _ _ _ hm,
      dispatch_json, bodyParser_accepts .json r _ p rfl hp hjson hlen hok]
    simp only [Run.push_trace]
    rw [dispatch_cons]
    have hc : ∀ (st0 : ServerState) (x0 : Exchange),
        urlencodedLayer.call none r st0 x0 = some (st0, bodyParser .urlencoded r x0) := by
      intro st0 x0
      simp [Layer.call, urlencodedLayer, LayerFn.pure]
    rw [hc]
    simp [bodyParser, urlencodedLayer]
  · intro msg hlen hbad hlim hm
    rw [json_raise_run env deps st r (malformed msg) hlim hm
      (fun x hx => bodyParser_malformed .json r x p msg hx hp hjson hlen hbad)]
    refine ⟨rfl, rfl, ?_⟩
    simp [Result.body?, errorBody, errorDetail, malformed]

/-! ## Instances on sample inputs -/

/-- On `POST /api/auth/login`, where the sample auth routes throw, the production pipeline answers 500 with the generic error text. -/
theorem handler_error_response_witness :
    (⟨.auth, .raised boom⟩ : Event) ∈ (handleRequest prodEnv sampleDeps freshState loginPost).trace ∧
    (handleRequest prodEnv sampleDeps freshState loginPost).result.status? = some 500 ∧
    (handleRequest prodEnv sampleDeps freshState loginPost).result.body? =
      some (.json [("success", .bool false), ("message", .str "Something went wrong!"),
        ("error", .str "Internal server error")]) :=
  ⟨by decide,
    (handler_error_response prodEnv sampleDeps boom).1 freshState loginPost .auth (Or.inl rfl)
      (by decide)⟩

/-- After 100 requests of one client inside one window the next one is request
number 101 and gets 429; the same request a full window later is handed on. -/
theorem rate_limit_window_witness :
    inOneWindow 900000 healthCheck.ip (List.replicate 100 healthCheck ++ [healthCheck]) = true ∧
    100 < hitsFrom healthCheck.ip (List.replicate 100 healthCheck) + 1 ∧
    (handleRequest prodEnv sampleDeps
      (stateAfter prodEnv sampleDeps freshState (List.replicate 100 healthCheck))
      healthCheck).result.status? = some 429 ∧
    ∃ sig rest, (handleRequest prodEnv sampleDeps
      (stateAfter prodEnv sampleDeps freshState (List.replicate 100 healthCheck))
      healthCheckLater).trace =
        ⟨.helmet, .passed⟩ :: ⟨.limiter, .passed⟩ :: ⟨.cors, sig⟩ :: rest :=
  ⟨by decide, by decide,
    (((rate_limit_window prodEnv sampleDeps (List.replicate 100 healthCheck) healthCheck).2.2.1
      (by decide)).2.1 (by decide)).2.1,
    (rate_limit_window prodEnv sampleDeps (List.replicate 100 healthCheck) healthCheckLater).2.2.2
      (by decide)⟩

/-- `POST /api/health` passes every stage ahead of the catch-all responder and gets 404. -/
theorem not_found_response_witness :
    (∀ ev ∈ (handleRequest prodEnv sampleDeps freshState healthPost).trace,
      ev.stage ≠ .notFound → ev.signal = .passed) ∧
    (handleRequest prodEnv sampleDeps freshState healthPost).result.status? = some 404 ∧
    (handleRequest prodEnv sampleDeps freshState healthPost).result.body? =
      some (.json [("success", .bool false), ("message", .str "Route not found")]) :=
  ⟨by decide, ((not_found_response prodEnv sampleDeps freshState healthPost).1 (by decide)).1,
    ((not_found_response prodEnv sampleDeps freshState healthPost).2.2 (by decide) (by decide)
      (by decide) (by decide) (by decide) (by decide) (by decide) (by decide)).2⟩

/-- `GET /api/health` in development mode reaches the health handler and gets 200 with the rendered clock. -/
theorem health_response_witness :
    StageName.health ∈ stagesOf (handleRequest devEnv sampleDeps freshState healthCheck) ∧
    ∃ hdrs, (handleRequest devEnv sampleDeps freshState healthCheck).result =
      .response ⟨200, hdrs,
        .json [("success", .bool true), ("message", .str "Alfa TechX API is running!"),
          ("timestamp", .str "2023-11-14T22:13:20.000Z")]⟩ :=
  ⟨by decide, (health_response devEnv sampleDeps freshState healthCheck).1 (by decide)⟩

/-- A start-up in which the health registration throws exits with code 1 after the three route groups. -/
theorem startup_fail_fast_witness :
    healthRaises .health = some boom ∧ (∀ t ∈ RegStep.health.before, healthRaises t = none) ∧
    ∃ b, startup prodEnv sampleDeps healthRaises = .exited 1 b ∧
      stageNames b.stack = baseStages prodEnv ++ RegStep.health.before.map RegStep.stage ∧
      b.console = RegStep.health.before.flatMap RegStep.lines ++
        [⟨.stdout, [RegStep.health.announce]⟩, ⟨.stderr, [RegStep.health.failure, boom.stack]⟩] :=
  ⟨by decide, by decide,
    (startup_fail_fast prodEnv sampleDeps healthRaises).1 .health boom (by decide) (by decide)⟩

/-- An error raised by the JSON body parser, the stage at position 3, is answered by the error handler. -/
theorem stage_order_witness :
    (app devEnv sampleDeps)[3]? = some jsonLayer ∧
    dispatch ((app devEnv sampleDeps).drop (3 + 1)) (some tooLarge) bigPost freshState
        Exchange.init =
      ⟨{ freshState with console := freshState.console ++ [⟨.stderr, [tooLarge.stack]⟩] },
        [⟨.errorHandler, .ended⟩],
        .response ⟨500, Exchange.init.headers, errorBody devEnv tooLarge⟩⟩ :=
  ⟨rfl, (stage_order devEnv sampleDeps).2.1 3 jsonLayer tooLarge bigPost freshState Exchange.init
    rfl (by decide) (by decide)⟩

/-- A request from a foreign origin passes the cross-origin stage and reaches the body parser. -/
theorem cors_never_rejects_witness :
    freshState.hits healthCheck.ip healthCheck.time < 100 ∧ healthCheck.method ≠ .OPTIONS ∧
    healthCheck.origin ≠ some (allowedOrigin prodEnv) ∧
    ∃ sig rest, (handleRequest prodEnv sampleDeps freshState healthCheck).trace =
      ⟨.helmet, .passed⟩ :: ⟨.limiter, .passed⟩ :: ⟨.cors, .passed⟩ :: ⟨.json, sig⟩ :: rest :=
  ⟨by decide, by decide, by decide,
    (cors_never_rejects prodEnv sampleDeps healthCheck).2.2.1 freshState (by decide)
      (by decide)⟩

/-- A JSON body of 10 MB plus one byte is answered 500, one of exactly 10 MB
passes the JSON parser, and a short body that is not JSON text is answered 500
with the parser's message in development mode. -/
theorem oversized_json_rejected_witness :
    bigPost.payload = some ⟨.json, 10485761, none⟩ ∧
    (handleRequest prodEnv sampleDeps freshState bigPost).result.status? = some 500 ∧
    (∃ sig rest, (handleRequest prodEnv sampleDeps freshState fullPost).trace =
      ⟨.helmet, .passed⟩ :: ⟨.limiter, .passed⟩ :: ⟨.cors, .passed⟩ :: ⟨.json, .passed⟩ ::
        ⟨.urlencoded, sig⟩ :: rest) ∧
    (handleRequest devEnv sampleDeps freshState brokenPost).result.body? =
      some (.json [("success", .bool false), ("message", .str "Something went wrong!"),
        ("error", .str "Unexpected token b in JSON at position 1")]) :=
  ⟨rfl,
    (((oversized_json_rejected prodEnv sampleDeps freshState bigPost ⟨.json, 10485761, none⟩
      rfl rfl).2.1 (by decide)).2 (by decide) (by decide)).2.1,
    ((oversized_json_rejected prodEnv sampleDeps freshState fullPost ⟨.json, 10485760, none⟩
      rfl rfl).2.2.1 (by decide) rfl (by decide) (by decide)).2,
    ((oversized_json_rejected devEnv sampleDeps freshState brokenPost
      ⟨.json, 5, some "Unexpected token b in JSON at position 1"⟩
      rfl rfl).2.2.2 "Unexpected token b in JSON at position 1" (by decide) rfl (by decide)
      (by decide)).2.2⟩

/-- With `PORT=8080` and `FRONTEND_URL` set both are used; with neither set the port is 5000. -/
theorem listen_and_origin_defaults_witness :
    customEnv.PORT = some "8080" ∧ PORT customEnv = .str "8080" ∧
    allowedOrigin customEnv = "https://app.example.com" ∧
    PORT prodEnv = .num 5000 :=
  ⟨rfl, (listen_and_origin_defaults customEnv sampleDeps).2.2.1 "8080" rfl (by decide),
    (listen_and_origin_defaults customEnv sampleDeps).2.2.2.2.1 "https://app.example.com" rfl
      (by decide),
    (listen_and_origin_defaults prodEnv sampleDeps).2.2.2.1 (Or.inl rfl)⟩

/-- After 100 health checks of one client inside one window the next health
check gets 429, not 200. -/
theorem rate_limit_before_routes_witness :
    inOneWindow 900000 healthCheck.ip (List.replicate 100 healthCheck ++ [healthCheck]) = true ∧
    100 ≤ hitsFrom healthCheck.ip (List.replicate 100 healthCheck) ∧
    (handleRequest prodEnv sampleDeps
      (stateAfter prodEnv sampleDeps freshState (List.replicate 100 healthCheck))
      healthCheck).result.status? = some 429 :=
  ⟨by decide, by decide,
    (rate_limit_before_routes prodEnv sampleDeps (List.replicate 100 healthCheck) healthCheck
      (by decide) (by decide)).2.1⟩

/-- C3, as stated with every method other than GET included: `HEAD /api/health`
passes the cross-cutting stages, is not taken by the static server or a route
group, is not a GET request, and yet is answered 200 by the health route, not
404. -/
theorem not_found_head_health_fails :
    healthHead.method ≠ .GET ∧ healthHead.path = "/api/health" ∧
    (handleRequest prodEnv sampleDeps freshState healthHead).trace =
      [⟨.helmet, .passed⟩, ⟨.limiter, .passed⟩, ⟨.cors, .passed⟩, ⟨.json, .passed⟩,
        ⟨.urlencoded, .passed⟩, ⟨.health, .ended⟩] ∧
    (handleRequest prodEnv sampleDeps freshState healthHead).result.status? = some 200 ∧
    (handleRequest prodEnv sampleDeps freshState healthHead).result.status? ≠ some 404 := by
  decide

end Server
